import Mathlib

/-!
Verification of the chat-router core of the multi-tenant telegram daemon.

The embedding models:
* `splitMessage` (telegram-integration/src/splitMessage.ts) over JavaScript
  strings represented as lists of UTF-16 code units (`List Nat`), so that
  code-point counting (`Array.from`) and surrogate pairs are faithfully
  represented.
* `ChatRouterStore` (chat-router src/db/store.ts, the JSON-file revision):
  a pure state-passing embedding.  The wall clock (`new Date().toISOString()`
  and `Date.now()`) is passed in as an explicit parameter.
* `ChatRouterService` (src/service.ts): validation, normalization and the
  synthetic outbound-id counter.  JavaScript exceptions are modelled with
  `Except String`; a thrown validation error returns the unchanged state.
* `triggerAcsJob` (src/acs/trigger.ts) with the outcome of the external
  `fetch` supplied as an oracle, and the `POST /messages` route of the HTTP
  adapter (src/api/server.ts).

Runtime string values are used where TypeScript has string literal unions
(`Platform`, `direction`), since the erased runtime semantics is what the
claims quantify over.  An absent / empty field of an HTTP body is modelled
as `""` (both are falsy for the `!x` checks), and `null`/`undefined` of
nullable fields as `none`.
-/

namespace SplitMsg

/-- UTF-16 high surrogate range (0xD800–0xDBFF). -/
def isHighSurrogate (u : Nat) : Bool := 0xD800 ≤ u && u ≤ 0xDBFF

/-- UTF-16 low surrogate range (0xDC00–0xDFFF). -/
def isLowSurrogate (u : Nat) : Bool := 0xDC00 ≤ u && u ≤ 0xDFFF

/-- `Array.from(s)`: group a UTF-16 code-unit sequence into code points.
A high surrogate immediately followed by a low surrogate forms one
code point (a two-unit cluster); every other unit stands alone. -/
def codePointClusters : List Nat → List (List Nat)
  | [] => []
  | [u] => [[u]]
  | u :: v :: rest =>
    if isHighSurrogate u && isLowSurrogate v then
      [u, v] :: codePointClusters rest
    else
      [u] :: codePointClusters (v :: rest)

/-- `String.prototype.lastIndexOf("\n")`, as an optional UTF-16 index
(JavaScript returns -1 when absent). -/
def lastIndexOfNewline : List Nat → Option Nat
  | [] => none
  | u :: rest =>
    match lastIndexOfNewline rest with
    | some i => some (i + 1)
    | none => if u == 10 then some 0 else none

/-- The `while (remaining.length > 0)` loop of `splitMessage`.  The loop is
embedded with explicit fuel; `splitMessage` supplies `text.length`, which
suffices whenever `maxLength ≥ 1` because every iteration either stops or
consumes at least one code unit. -/
def splitLoop (maxLength : Nat) : Nat → List Nat → List (List Nat)
  | 0, _ => []
  | fuel + 1, remaining =>
    if remaining.length = 0 then []
    else if remaining.length ≤ maxLength then [remaining]
    else
      let codePoints := codePointClusters remaining
      if codePoints.length ≤ maxLength then [remaining]
      else
        let window := (codePoints.take maxLength).flatten
        match lastIndexOfNewline window with
        | some p =>
          if 0 < p then
            window.take (p + 1) :: splitLoop maxLength fuel (remaining.drop (p + 1))
          else
            window :: splitLoop maxLength fuel (remaining.drop window.length)
        | none => window :: splitLoop maxLength fuel (remaining.drop window.length)

/-- Telegram's maximum message length (code points). -/
def TELEGRAM_MAX_LENGTH : Nat := 4096

/-- `splitMessage(text, maxLength)` from splitMessage.ts. -/
def splitMessage (text : List Nat) (maxLength : Nat) : List (List Nat) :=
  if text.length = 0 then [[]]
  else if text.length ≤ maxLength then [text]
  else splitLoop maxLength text.length text

/-- A single code-point cluster is well formed when it is a surrogate pair
(two units) or a lone non-surrogate unit. -/
def clusterWellFormed (c : List Nat) : Bool :=
  c.length = 2 || c.all (fun u => !(isHighSurrogate u) && !(isLowSurrogate u))

/-- A UTF-16 sequence is well formed when it contains no unpaired
surrogate: every cluster is a full pair or a non-surrogate unit. -/
def wellFormedUtf16 (s : List Nat) : Bool :=
  (codePointClusters s).all clusterWellFormed

end SplitMsg

namespace ChatRouter

/-- types.ts `TimelineEntryInput` (store.ts): data passed to
`insertTimelineEntry`; `id` and `createdAt` are assigned by the store. -/
structure TimelineEntryInput where
  direction : String
  platform : String
  platformMessageId : String
  platformChatId : String
  platformChatType : Option String
  senderName : String
  senderId : String
  text : Option String
  timestamp : Option Nat
  platformMeta : Option String
deriving Repr, DecidableEq

/-- types.ts `TimelineEntry`: the persisted message row. -/
structure TimelineEntry where
  id : Nat
  direction : String
  platform : String
  platformMessageId : String
  platformChatId : String
  platformChatType : Option String
  senderName : String
  senderId : String
  text : Option String
  timestamp : Option Nat
  platformMeta : Option String
  createdAt : String
deriving Repr, DecidableEq

/-- types.ts `Conversation`: aggregate for one (platform, platformChatId). -/
structure Conversation where
  id : Nat
  platform : String
  platformChatId : String
  platformChatType : Option String
  label : String
  firstSeenAt : String
  lastMessageAt : String
  messageCount : Nat
deriving Repr, DecidableEq

/-- store.ts `StoreState`: the serialized shape of the whole store. -/
structure StoreState where
  timeline : List TimelineEntry
  conversations : List Conversation
  nextTimelineId : Nat
  nextConversationId : Nat
deriving Repr, DecidableEq

/-- The empty state set up by the `ChatRouterStore` constructor. -/
def initialState : StoreState :=
  { timeline := [], conversations := [], nextTimelineId := 1, nextConversationId := 1 }

/-- store.ts `insertTimelineEntry`: assign `id` and `createdAt`, push the
record.  `now` models `new Date().toISOString()`. -/
def insertTimelineEntry (s : StoreState) (now : String) (entry : TimelineEntryInput) :
    TimelineEntry × StoreState :=
  let record : TimelineEntry :=
    { id := s.nextTimelineId
      direction := entry.direction
      platform := entry.platform
      platformMessageId := entry.platformMessageId
      platformChatId := entry.platformChatId
      platformChatType := entry.platformChatType
      senderName := entry.senderName
      senderId := entry.senderId
      text := entry.text
      timestamp := entry.timestamp
      platformMeta := entry.platformMeta
      createdAt := now }
  (record,
    { s with
      timeline := s.timeline ++ [record]
      nextTimelineId := s.nextTimelineId + 1 })

/-- The `(c) => c.platform === platform && c.platformChatId === platformChatId`
predicate used by `upsertConversation` / `getConversation`. -/
def convMatches (platform platformChatId : String) (c : Conversation) : Bool :=
  c.platform == platform && c.platformChatId == platformChatId

/-- In-place mutation of the first list element satisfying `p`
(JavaScript `find` returns a live reference that the code mutates). -/
def updateFirst (p : α → Bool) (f : α → α) : List α → List α
  | [] => []
  | x :: xs => if p x then f x :: xs else x :: updateFirst p f xs

/-- store.ts `upsertConversation`: create or update the conversation for
(platform, platformChatId).  On conflict: bump `messageCount`, overwrite
`lastMessageAt` and `label`, overwrite `platformChatType` only when the
supplied value is non-null. -/
def upsertConversation (s : StoreState) (now : String)
    (platform platformChatId label : String) (chatType : Option String) :
    Conversation × StoreState :=
  match s.conversations.find? (convMatches platform platformChatId) with
  | some existing =>
    let updated : Conversation :=
      { existing with
        lastMessageAt := now
        messageCount := existing.messageCount + 1
        label := label
        platformChatType :=
          match chatType with
          | some t => some t
          | none => existing.platformChatType }
    (updated,
      { s with
        conversations :=
          updateFirst (convMatches platform platformChatId) (fun _ => updated)
            s.conversations })
  | none =>
    let conversation : Conversation :=
      { id := s.nextConversationId
        platform := platform
        platformChatId := platformChatId
        platformChatType := chatType
        label := label
        firstSeenAt := now
        lastMessageAt := now
        messageCount := 1 }
    (conversation,
      { s with
        conversations := s.conversations ++ [conversation]
        nextConversationId := s.nextConversationId + 1 })

/-- store.ts `ingestTransaction`: insert the timeline entry, then upsert the
associated conversation; returns the inserted entry. -/
def ingestTransaction (s : StoreState) (now : String)
    (entryData : TimelineEntryInput) (label : String) :
    TimelineEntry × StoreState :=
  let inserted := insertTimelineEntry s now entryData
  let upserted :=
    upsertConversation inserted.2 now entryData.platform entryData.platformChatId
      label entryData.platformChatType
  (inserted.1, upserted.2)

/-- The sequence of states written to the backing JSON file during one
`ingestTransaction`: `insertTimelineEntry` ends with `persist()`, and
`upsertConversation` ends with a second `persist()`.  A crash between the
two writes recovers to the first state of this list. -/
def ingestPersistedStates (s : StoreState) (now : String)
    (entryData : TimelineEntryInput) (label : String) : List StoreState :=
  let inserted := insertTimelineEntry s now entryData
  let upserted :=
    upsertConversation inserted.2 now entryData.platform entryData.platformChatId
      label entryData.platformChatType
  [inserted.2, upserted.2]

/-- One insertion step of `entries.sort((a, b) => b.id - a.id)`: the
element is placed before the first position whose id is not larger. -/
def insertByIdDesc (e : TimelineEntry) : List TimelineEntry → List TimelineEntry
  | [] => [e]
  | x :: xs => if e.id < x.id then x :: insertByIdDesc e xs else e :: x :: xs

/-- `entries.sort((a, b) => b.id - a.id)`: JavaScript's `Array.prototype.sort`
is stable (ES2019), and a stable sort's output is uniquely determined by
the comparator, so it is embedded as the stable insertion sort. -/
def sortByIdDesc : List TimelineEntry → List TimelineEntry
  | [] => []
  | x :: xs => insertByIdDesc x (sortByIdDesc xs)

/-- store.ts `getTimeline(platform, platformChatId, before?, limit = 50)`:
filter by the conversation key, apply the exclusive `before` cursor when
given, sort by id descending, truncate to `limit` (the JavaScript default
parameter 50 applies when the caller passes `undefined`, modelled by
`Option.getD`). -/
def getTimeline (s : StoreState) (platform platformChatId : String)
    (before : Option Nat) (limit : Option Nat) : List TimelineEntry :=
  let entries := s.timeline.filter
    (fun e => e.platform == platform && e.platformChatId == platformChatId)
  let entries2 :=
    match before with
    | some b => entries.filter (fun e => e.id < b)
    | none => entries
  (sortByIdDesc entries2).take (limit.getD 50)

/-- Canonical query predicate for the amended timeline-query statement: the
conversation key matches and, when a `before` cursor is given, the id is
strictly below it. -/
def timelineQueryMatches (platform platformChatId : String) (before : Option Nat)
    (e : TimelineEntry) : Bool :=
  e.platform == platform && e.platformChatId == platformChatId &&
    (match before with
      | some b => decide (e.id < b)
      | none => true)

/-- store.ts `getConversation`: first conversation matching the key. -/
def getConversation (s : StoreState) (platform platformChatId : String) :
    Option Conversation :=
  s.conversations.find? (convMatches platform platformChatId)

/-- store.ts `getStats`. -/
def getStats (s : StoreState) : Nat × Nat :=
  (s.timeline.length, s.conversations.length)

/-- types.ts `InboundMessage` as received over HTTP.  `platform` and the
other required string fields are runtime strings; `""` models both an
absent and an empty field (both are falsy for the `!x` checks).  The
`platformMeta` bag is modelled by its serialized JSON form: the service
passes `JSON.stringify(msg.platformMeta)` through when the bag is present
(any object, including `{}`, is truthy) and `null` otherwise. -/
structure InboundMessage where
  platform : String
  platformMessageId : String
  platformChatId : String
  platformChatType : Option String
  senderName : String
  senderId : String
  text : Option String
  timestamp : Option Nat
  platformMeta : Option String
deriving Repr, DecidableEq

/-- service.ts: the mutable fields of a `ChatRouterService` instance. -/
structure ServiceState where
  store : StoreState
  syntheticIdCounter : Nat
deriving Repr, DecidableEq

/-- A fresh `ChatRouterService` wrapping store state `s`
(`syntheticIdCounter` starts at 0). -/
def mkService (s : StoreState) : ServiceState :=
  { store := s, syntheticIdCounter := 0 }

/-- service.ts `validateInbound`: the five required string fields are
checked for falsiness (absent or `""`); `timestamp` is checked for
null-ness only (`=== undefined || === null`), so the number 0 passes.
Returns the message of the error thrown, if any. -/
def validateInbound (msg : InboundMessage) : Option String :=
  if msg.platform = "" then some "ingestMessage: platform is required"
  else if msg.platformMessageId = "" then
    some "ingestMessage: platformMessageId is required"
  else if msg.platformChatId = "" then
    some "ingestMessage: platformChatId is required"
  else if msg.senderName = "" then some "ingestMessage: senderName is required"
  else if msg.senderId = "" then some "ingestMessage: senderId is required"
  else if msg.timestamp = none then some "ingestMessage: timestamp is required"
  else none

/-- service.ts `ingestMessage`: validate, normalize (absent optionals
become null), then `store.ingestTransaction` with label = senderName.
A validation throw leaves the state untouched. -/
def ingestMessage (st : ServiceState) (now : String) (msg : InboundMessage) :
    Except String TimelineEntry × ServiceState :=
  match validateInbound msg with
  | some err => (Except.error err, st)
  | none =>
    let entryData : TimelineEntryInput :=
      { direction := "in"
        platform := msg.platform
        platformMessageId := msg.platformMessageId
        platformChatId := msg.platformChatId
        platformChatType := msg.platformChatType
        senderName := msg.senderName
        senderId := msg.senderId
        text := msg.text
        timestamp := msg.timestamp
        platformMeta := msg.platformMeta }
    let result := ingestTransaction st.store now entryData msg.senderName
    (Except.ok result.1, { st with store := result.2 })

/-- The body of `POST /api/responses` / `recordResponse` parameters. -/
structure RecordResponseParams where
  platform : String
  platformChatId : String
  text : String
  inReplyTo : Option Nat
deriving Repr, DecidableEq

/-- `JSON.stringify({ inReplyTo: v })`. -/
def jsonInReplyTo (v : Nat) : String :=
  "\x7b\"inReplyTo\":" ++ toString v ++ "\x7d"

/-- service.ts `recordResponse`: validate, mint `router-N` from the
instance counter, fill the synthetic outbound fields, then
`store.ingestTransaction` with label `"System"`.  `nowMs` models
`Date.now()` and `now` models the store's `new Date().toISOString()`. -/
def recordResponse (st : ServiceState) (now : String) (nowMs : Nat)
    (params : RecordResponseParams) :
    Except String TimelineEntry × ServiceState :=
  if params.platform = "" then
    (Except.error "recordResponse: platform is required", st)
  else if params.platformChatId = "" then
    (Except.error "recordResponse: platformChatId is required", st)
  else if params.text = "" then
    (Except.error "recordResponse: text is required", st)
  else
    let counter := st.syntheticIdCounter + 1
    let syntheticMessageId := "router-" ++ toString counter
    let entryData : TimelineEntryInput :=
      { direction := "out"
        platform := params.platform
        platformMessageId := syntheticMessageId
        platformChatId := params.platformChatId
        platformChatType := none
        senderName := "System"
        senderId := "system"
        text := some params.text
        timestamp := some nowMs
        platformMeta := params.inReplyTo.map jsonInReplyTo }
    let result := ingestTransaction st.store now entryData "System"
    (Except.ok result.1, { store := result.2, syntheticIdCounter := counter })

/-- service.ts `getTimeline`.  The `IChatRouterService` interface declares
an `after` cursor and the HTTP adapter parses and forwards it, but this
implementation destructures only `before` and `limit`; the `after`
argument is received and ignored. -/
def serviceGetTimeline (st : ServiceState) (platform platformChatId : String)
    (after before limit : Option Nat) : List TimelineEntry :=
  getTimeline st.store platform platformChatId before limit

/-- One ingest operation of a run: the wall-clock string observed by the
store, the entry data and the conversation label. -/
structure IngestOp where
  now : String
  entry : TimelineEntryInput
  label : String

/-- Run a sequence of `ingestTransaction` calls (inbound and outbound
ingests both reach the store through `ingestTransaction`), collecting the
returned entries. -/
def runIngests (s : StoreState) : List IngestOp → List TimelineEntry × StoreState
  | [] => ([], s)
  | op :: rest =>
    let r := ingestTransaction s op.now op.entry op.label
    let rr := runIngests r.2 rest
    (r.1 :: rr.1, rr.2)

/-- One `recordResponse` call of a run: wall clock plus parameters. -/
structure ResponseCall where
  now : String
  nowMs : Nat
  params : RecordResponseParams

/-- Run a sequence of `recordResponse` calls on one service instance. -/
def runResponses (st : ServiceState) :
    List ResponseCall → List (Except String TimelineEntry) × ServiceState
  | [] => ([], st)
  | c :: rest =>
    let r := recordResponse st c.now c.nowMs c.params
    let rr := runResponses r.2 rest
    (r.1 :: rr.1, rr.2)

end ChatRouter

namespace AcsTrigger

open ChatRouter

/-- trigger.ts `AcsTriggerConfig`. -/
structure AcsTriggerConfig where
  acsBaseUrl : String
  jobName : String
  routerUrl : String
deriving Repr, DecidableEq

/-- Template-literal rendering of `entry.text` (a `null` prints "null"). -/
def textToJs : Option String → String
  | some t => t
  | none => "null"

/-- trigger.ts `buildPrompt`. -/
def buildPrompt (entry : TimelineEntry) (routerUrl : String) : String :=
  "[ROUTER=" ++ routerUrl ++ "]" ++ " [PLATFORM=" ++ entry.platform ++ "]"
    ++ " [CHAT_ID=" ++ entry.platformChatId ++ "]"
    ++ " [IN_REPLY_TO=" ++ toString entry.id ++ "]"
    ++ " User message: " ++ textToJs entry.text

/-- Oracle for the outcome of the `fetch` to the ACS trigger endpoint:
the request may fail on the network, come back non-2xx (`!res.ok`), return
a body that `res.json()` cannot parse, or succeed. -/
inductive FetchOutcome where
  | networkError : FetchOutcome
  | badStatus : FetchOutcome
  | parseFailure : FetchOutcome
  | success : Option String → FetchOutcome
deriving Repr, DecidableEq

/-- trigger.ts `triggerAcsJob`.  Returns (result, requested): `result` is
the boolean the promise resolves to — the try/catch guarantees it never
rejects — and `requested` records whether the outbound HTTP request was
issued at all. -/
def triggerAcsJob (outcome : FetchOutcome) (_config : AcsTriggerConfig)
    (entry : TimelineEntry) : Bool × Bool :=
  if entry.direction ≠ "in" then (false, false)
  else if entry.text = none ∨ entry.text = some "" then (false, false)
  else
    match outcome with
    | FetchOutcome.networkError => (false, true)
    | FetchOutcome.badStatus => (false, true)
    | FetchOutcome.parseFailure => (false, true)
    | FetchOutcome.success _ => (true, true)

/-- server.ts `POST /messages` route: ingest, await the ACS trigger when
configured (its result is discarded), answer 201 with the entry; a
validation throw is answered 400. -/
def postMessages (st : ServiceState) (now : String) (outcome : FetchOutcome)
    (acsConfig : Option AcsTriggerConfig) (body : InboundMessage) :
    Nat × ServiceState :=
  match ingestMessage st now body with
  | (Except.ok entry, st2) =>
    let _ := acsConfig.map (fun cfg => triggerAcsJob outcome cfg entry)
    (201, st2)
  | (Except.error _, st2) => (400, st2)

end AcsTrigger

namespace SplitMsg

theorem clusters_flatten : ∀ s : List Nat, (codePointClusters s).flatten = s := by
  intro s
  induction s using codePointClusters.induct with
  | case1 => rfl
  | case2 u => rfl
  | case3 u v rest h ih =>
    simp only [codePointClusters, h, if_true, List.flatten_cons]
    simp [ih]
  | case4 u v rest h ih =>
    simp only [codePointClusters, if_neg h, List.flatten_cons]
    simp [ih]

theorem clusters_eq_nil_iff {s : List Nat} : codePointClusters s = [] ↔ s = [] := by
  constructor
  · intro h
    have := clusters_flatten s
    rw [h] at this
    simpa using this.symm
  · intro h; subst h; rfl

theorem clusters_ne_nil {s : List Nat} : ∀ c ∈ codePointClusters s, c ≠ [] := by
  induction s using codePointClusters.induct with
  | case1 => intro c hc; simp [codePointClusters] at hc
  | case2 u => intro c hc; simp [codePointClusters] at hc; simp [hc]
  | case3 u v rest h ih =>
    intro c hc
    simp only [codePointClusters, h, if_true, List.mem_cons] at hc
    rcases hc with rfl | hc
    · simp
    · exact ih c hc
  | case4 u v rest h ih =>
    intro c hc
    simp only [codePointClusters, if_neg h, List.mem_cons] at hc
    rcases hc with rfl | hc
    · simp
    · exact ih c hc

theorem clusters_length_le : ∀ s : List Nat, (codePointClusters s).length ≤ s.length := by
  intro s
  induction s using codePointClusters.induct with
  | case1 => simp [codePointClusters]
  | case2 u => simp [codePointClusters]
  | case3 u v rest h ih =>
    simp only [codePointClusters, h, if_true, List.length_cons]
    omega
  | case4 u v rest h ih =>
    simp only [codePointClusters, if_neg h, List.length_cons]
    simp only [List.length_cons] at ih
    omega

theorem clusters_cons_head (w : Nat) (s : List Nat) :
    ∃ ct cs, codePointClusters (w :: s) = (w :: ct) :: cs := by
  cases s with
  | nil => exact ⟨[], [], rfl⟩
  | cons v r =>
    by_cases h : (isHighSurrogate w && isLowSurrogate v) = true
    · exact ⟨[v], codePointClusters r, by simp [codePointClusters, h]⟩
    · exact ⟨[], codePointClusters (v :: r), by simp [codePointClusters, h]⟩

theorem clusters_pair_cons {u v : Nat} (rest : List Nat)
    (h : (isHighSurrogate u && isLowSurrogate v) = true) :
    codePointClusters (u :: v :: rest) = [u, v] :: codePointClusters rest := by
  simp [codePointClusters, h]

theorem clusters_nonpair_cons {u v : Nat} (rest : List Nat)
    (h : ¬(isHighSurrogate u && isLowSurrogate v) = true) :
    codePointClusters (u :: v :: rest) = [u] :: codePointClusters (v :: rest) := by
  simp [codePointClusters, h]

theorem take_flatten_clusters : ∀ (s : List Nat) (n : Nat),
    codePointClusters (((codePointClusters s).take n).flatten) = (codePointClusters s).take n := by
  intro s
  induction s using codePointClusters.induct with
  | case1 => intro n; simp [codePointClusters]
  | case2 u =>
    intro n
    cases n with
    | zero => simp [codePointClusters]
    | succ m => simp [codePointClusters]
  | case3 u v rest h ih =>
    intro n
    cases n with
    | zero => simp [codePointClusters]
    | succ m =>
      rw [clusters_pair_cons rest h, List.take_succ_cons, List.flatten_cons,
        List.cons_append, List.cons_append, List.nil_append,
        clusters_pair_cons _ h, ih m]
  | case4 u v rest h ih =>
    intro n
    cases n with
    | zero => simp [codePointClusters]
    | succ m =>
      rw [clusters_nonpair_cons rest h, List.take_succ_cons, List.flatten_cons,
        List.singleton_append]
      cases m with
      | zero => simp [codePointClusters]
      | succ k =>
        obtain ⟨ct, cs, hcs⟩ := clusters_cons_head v rest
        rw [hcs, List.take_succ_cons, List.flatten_cons, List.cons_append,
          clusters_nonpair_cons _ h]
        have h2 := ih (k + 1)
        rw [hcs, List.take_succ_cons, List.flatten_cons, List.cons_append] at h2
        rw [h2]

theorem drop_flatten_clusters : ∀ (s : List Nat) (n : Nat),
    codePointClusters (((codePointClusters s).drop n).flatten) = (codePointClusters s).drop n := by
  intro s
  induction s using codePointClusters.induct with
  | case1 => intro n; simp [codePointClusters]
  | case2 u =>
    intro n
    cases n with
    | zero => simp [clusters_flatten]
    | succ m => simp [codePointClusters]
  | case3 u v rest h ih =>
    intro n
    cases n with
    | zero => simp [clusters_flatten]
    | succ m =>
      rw [clusters_pair_cons rest h, List.drop_succ_cons]
      exact ih m
  | case4 u v rest h ih =>
    intro n
    cases n with
    | zero => simp [clusters_flatten]
    | succ m =>
      rw [clusters_nonpair_cons rest h, List.drop_succ_cons]
      exact ih m

theorem ne_ten_of_high {u : Nat} (h : isHighSurrogate u = true) : u ≠ 10 := by
  simp [isHighSurrogate] at h
  omega

theorem ne_ten_of_low {u : Nat} (h : isLowSurrogate u = true) : u ≠ 10 := by
  simp [isLowSurrogate] at h
  omega

theorem clusters_split_at : ∀ (s : List Nat) (p : Nat), s[p]? = some 10 →
    codePointClusters s
      = codePointClusters (s.take (p + 1)) ++ codePointClusters (s.drop (p + 1)) := by
  intro s
  induction s using codePointClusters.induct with
  | case1 => intro p hp; simp at hp
  | case2 u =>
    intro p hp
    cases p with
    | zero =>
      simp only [List.getElem?_cons_zero, Option.some_inj] at hp
      simp [codePointClusters]
    | succ q => simp at hp
  | case3 u v rest h ih =>
    intro p hp
    have hpair : isHighSurrogate u = true ∧ isLowSurrogate v = true := by simpa using h
    obtain ⟨hu, hv⟩ := hpair
    cases p with
    | zero =>
      simp only [List.getElem?_cons_zero, Option.some_inj] at hp
      exact absurd hp (ne_ten_of_high hu)
    | succ q =>
      cases q with
      | zero =>
        simp only [List.getElem?_cons_succ, List.getElem?_cons_zero, Option.some_inj] at hp
        exact absurd hp (ne_ten_of_low hv)
      | succ r =>
        simp only [List.getElem?_cons_succ] at hp
        simp only [List.take_succ_cons, List.drop_succ_cons]
        rw [clusters_pair_cons rest h, clusters_pair_cons _ h, ih r hp,
          List.cons_append]
  | case4 u v rest h ih =>
    intro p hp
    cases p with
    | zero =>
      simp only [List.getElem?_cons_zero, Option.some_inj] at hp
      subst hp
      simp only [List.take_succ_cons, List.take_zero, List.drop_succ_cons, List.drop_zero]
      rw [clusters_nonpair_cons rest h]
      rfl
    | succ q =>
      simp only [List.getElem?_cons_succ] at hp
      simp only [List.take_succ_cons, List.drop_succ_cons]
      rw [clusters_nonpair_cons rest h, ih q hp]
      have hq : (v :: rest).take (q + 1) = v :: rest.take q := List.take_succ_cons
      rw [hq]
      cases hq2 : rest.take q with
      | nil =>
        rw [clusters_nonpair_cons _ h]
        simp [hq2]
      | cons w ws =>
        rw [clusters_nonpair_cons _ h]
        simp [hq2]

theorem clusters_append_single : ∀ (A : List Nat) (u : Nat), isLowSurrogate u = false →
    codePointClusters (A ++ [u]) = codePointClusters A ++ [[u]] := by
  intro A
  induction A using codePointClusters.induct with
  | case1 => intro u _; simp [codePointClusters]
  | case2 a =>
    intro u hu
    have h2 : ¬(isHighSurrogate a && isLowSurrogate u) = true := by simp [hu]
    show codePointClusters (a :: u :: []) = _
    rw [clusters_nonpair_cons _ h2]
    simp [codePointClusters]
  | case3 a b A2 h ih =>
    intro u hu
    show codePointClusters (a :: b :: (A2 ++ [u])) = _
    rw [clusters_pair_cons _ h, clusters_pair_cons _ h, ih u hu, List.cons_append]
  | case4 a b A2 h ih =>
    intro u hu
    show codePointClusters (a :: b :: (A2 ++ [u])) = _
    rw [clusters_nonpair_cons _ h, ← List.cons_append, ih u hu,
      clusters_nonpair_cons _ h, List.cons_append]

theorem lastIdx_spec : ∀ (s : List Nat) (p : Nat), lastIndexOfNewline s = some p →
    p < s.length ∧ s[p]? = some 10 := by
  intro s
  induction s with
  | nil => intro p hp; simp [lastIndexOfNewline] at hp
  | cons u rest ih =>
    intro p hp
    unfold lastIndexOfNewline at hp
    cases hr : lastIndexOfNewline rest with
    | some i =>
      rw [hr] at hp
      simp only [Option.some_inj] at hp
      subst hp
      obtain ⟨hlt, hget⟩ := ih i hr
      constructor
      · simpa using Nat.succ_lt_succ hlt
      · simpa using hget
    | none =>
      rw [hr] at hp
      by_cases hu : (u == 10) = true
      · rw [if_pos hu] at hp
        simp only [Option.some_inj] at hp
        subst hp
        have hu2 : u = 10 := by simpa using hu
        subst hu2
        exact ⟨by simp, by simp⟩
      · rw [if_neg hu] at hp
        exact absurd hp (by simp)

theorem splitLoop_succ_nil (maxLength fuel : Nat) (r : List Nat) (h0 : r.length = 0) :
    splitLoop maxLength (fuel + 1) r = [] := by
  simp only [splitLoop, if_pos h0]

theorem splitLoop_succ_small (maxLength fuel : Nat) (r : List Nat)
    (h0 : ¬ r.length = 0) (h1 : r.length ≤ maxLength) :
    splitLoop maxLength (fuel + 1) r = [r] := by
  simp only [splitLoop, if_neg h0, if_pos h1]

theorem splitLoop_succ_smallcp (maxLength fuel : Nat) (r : List Nat)
    (h0 : ¬ r.length = 0) (h1 : ¬ r.length ≤ maxLength)
    (h2 : (codePointClusters r).length ≤ maxLength) :
    splitLoop maxLength (fuel + 1) r = [r] := by
  simp only [splitLoop, if_neg h0, if_neg h1, if_pos h2]

theorem splitLoop_succ_newline (maxLength fuel : Nat) (r : List Nat) (p : Nat)
    (h0 : ¬ r.length = 0) (h1 : ¬ r.length ≤ maxLength)
    (h2 : ¬ (codePointClusters r).length ≤ maxLength)
    (hw : lastIndexOfNewline (((codePointClusters r).take maxLength).flatten) = some p)
    (hp : 0 < p) :
    splitLoop maxLength (fuel + 1) r
      = (((codePointClusters r).take maxLength).flatten).take (p + 1)
          :: splitLoop maxLength fuel (r.drop (p + 1)) := by
  simp only [splitLoop, if_neg h0, if_neg h1, if_neg h2, hw, if_pos hp]

theorem splitLoop_succ_newline_zero (maxLength fuel : Nat) (r : List Nat)
    (h0 : ¬ r.length = 0) (h1 : ¬ r.length ≤ maxLength)
    (h2 : ¬ (codePointClusters r).length ≤ maxLength)
    (hw : lastIndexOfNewline (((codePointClusters r).take maxLength).flatten) = some 0) :
    splitLoop maxLength (fuel + 1) r
      = ((codePointClusters r).take maxLength).flatten
          :: splitLoop maxLength fuel
              (r.drop (((codePointClusters r).take maxLength).flatten).length) := by
  simp only [splitLoop, if_neg h0, if_neg h1, if_neg h2, hw]
  rw [if_neg (lt_irrefl 0)]

theorem splitLoop_succ_nonewline (maxLength fuel : Nat) (r : List Nat)
    (h0 : ¬ r.length = 0) (h1 : ¬ r.length ≤ maxLength)
    (h2 : ¬ (codePointClusters r).length ≤ maxLength)
    (hw : lastIndexOfNewline (((codePointClusters r).take maxLength).flatten) = none) :
    splitLoop maxLength (fuel + 1) r
      = ((codePointClusters r).take maxLength).flatten
          :: splitLoop maxLength fuel
              (r.drop (((codePointClusters r).take maxLength).flatten).length) := by
  simp only [splitLoop, if_neg h0, if_neg h1, if_neg h2, hw]

theorem window_append (r : List Nat) (n : Nat) :
    ((codePointClusters r).take n).flatten ++ ((codePointClusters r).drop n).flatten = r := by
  rw [← List.flatten_append, List.take_append_drop]
  exact clusters_flatten r

theorem window_ne_nil (r : List Nat) (n : Nat) (hm : 1 ≤ n)
    (h2 : ¬ (codePointClusters r).length ≤ n) :
    ((codePointClusters r).take n).flatten ≠ [] := by
  intro hw0
  have h3 := take_flatten_clusters r n
  rw [hw0] at h3
  have h4 : (codePointClusters r).take n = [] := h3.symm
  rcases List.take_eq_nil_iff.mp h4 with h5 | h5
  · omega
  · rw [h5] at h2
    simp at h2

theorem drop_window (r : List Nat) (n : Nat) :
    r.drop (((codePointClusters r).take n).flatten).length
      = ((codePointClusters r).drop n).flatten := by
  have h := window_append r n
  calc r.drop (((codePointClusters r).take n).flatten).length
      = (((codePointClusters r).take n).flatten
          ++ ((codePointClusters r).drop n).flatten).drop
            (((codePointClusters r).take n).flatten).length := by rw [h]
    _ = ((codePointClusters r).drop n).flatten := List.drop_left _ _

theorem take_window (r : List Nat) (n : Nat) (k : Nat)
    (hk : k ≤ (((codePointClusters r).take n).flatten).length) :
    (((codePointClusters r).take n).flatten).take k = r.take k := by
  conv_rhs => rw [← window_append r n]
  rw [List.take_append_eq_append_take, Nat.sub_eq_zero_of_le hk, List.take_zero,
    List.append_nil]

theorem getElem_window (r : List Nat) (n : Nat) (p : Nat)
    (hp : p < (((codePointClusters r).take n).flatten).length) :
    (((codePointClusters r).take n).flatten)[p]? = r[p]? := by
  conv_rhs => rw [← window_append r n]
  rw [List.getElem?_append, if_pos hp]

theorem splitLoop_clusters (maxLength : Nat) (hm : 1 ≤ maxLength) :
    ∀ (fuel : Nat) (remaining : List Nat), remaining.length ≤ fuel →
      ((splitLoop maxLength fuel remaining).map codePointClusters).flatten
        = codePointClusters remaining := by
  intro fuel
  induction fuel with
  | zero =>
    intro r hr
    have h0 : r = [] := List.length_eq_zero.mp (Nat.le_zero.mp hr)
    subst h0
    rfl
  | succ fuel ih =>
    intro r hr
    by_cases h0 : r.length = 0
    · have h0e : r = [] := List.length_eq_zero.mp h0
      subst h0e
      rw [splitLoop_succ_nil maxLength fuel [] rfl]
      rfl
    · by_cases h1 : r.length ≤ maxLength
      · rw [splitLoop_succ_small maxLength fuel r h0 h1]
        simp
      · by_cases h2 : (codePointClusters r).length ≤ maxLength
        · rw [splitLoop_succ_smallcp maxLength fuel r h0 h1 h2]
          simp
        · have hwne := window_ne_nil r maxLength hm h2
          have hwlen : 1 ≤ (((codePointClusters r).take maxLength).flatten).length := by
            rcases Nat.eq_zero_or_pos
                (((codePointClusters r).take maxLength).flatten).length with hz | hpos
            · exact absurd (List.length_eq_zero.mp hz) hwne
            · exact hpos
          have hwle : (((codePointClusters r).take maxLength).flatten).length ≤ r.length := by
            have hap := window_append r maxLength
            calc (((codePointClusters r).take maxLength).flatten).length
                ≤ (((codePointClusters r).take maxLength).flatten).length
                    + (((codePointClusters r).drop maxLength).flatten).length :=
                  Nat.le_add_right _ _
              _ = (((codePointClusters r).take maxLength).flatten
                    ++ ((codePointClusters r).drop maxLength).flatten).length :=
                  (List.length_append _ _).symm
              _ = r.length := by rw [hap]
          cases hw : lastIndexOfNewline (((codePointClusters r).take maxLength).flatten) with
          | none =>
            rw [splitLoop_succ_nonewline maxLength fuel r h0 h1 h2 hw]
            rw [List.map_cons, List.flatten_cons]
            have hdrop : (r.drop (((codePointClusters r).take maxLength).flatten).length).length
                ≤ fuel := by
              rw [List.length_drop]
              omega
            rw [ih _ hdrop, drop_window, drop_flatten_clusters, take_flatten_clusters,
              List.take_append_drop]
          | some p =>
            obtain ⟨hplt, hpget⟩ := lastIdx_spec _ p hw
            by_cases hp : 0 < p
            · rw [splitLoop_succ_newline maxLength fuel r p h0 h1 h2 hw hp]
              rw [List.map_cons, List.flatten_cons]
              have hdrop : (r.drop (p + 1)).length ≤ fuel := by
                rw [List.length_drop]
                omega
              have hrget : r[p]? = some 10 := by
                rw [← getElem_window r maxLength p hplt]
                exact hpget
              rw [ih _ hdrop, take_window r maxLength (p + 1) hplt,
                ← clusters_split_at r p hrget]
            · have hp0 : p = 0 := by omega
              subst hp0
              rw [splitLoop_succ_newline_zero maxLength fuel r h0 h1 h2 hw]
              rw [List.map_cons, List.flatten_cons]
              have hdrop : (r.drop (((codePointClusters r).take maxLength).flatten).length).length
                  ≤ fuel := by
                rw [List.length_drop]
                omega
              rw [ih _ hdrop, drop_window, drop_flatten_clusters, take_flatten_clusters,
                List.take_append_drop]

theorem splitLoop_flatten (maxLength : Nat) (hm : 1 ≤ maxLength) (fuel : Nat)
    (r : List Nat) (hr : r.length ≤ fuel) :
    (splitLoop maxLength fuel r).flatten = r := by
  have hc := splitLoop_clusters maxLength hm fuel r hr
  have hmapid : (splitLoop maxLength fuel r).map (fun c => (codePointClusters c).flatten)
      = splitLoop maxLength fuel r := by
    simp [clusters_flatten]
  calc (splitLoop maxLength fuel r).flatten
      = (((splitLoop maxLength fuel r).map codePointClusters).map List.flatten).flatten := by
        rw [List.map_map]
        rw [show List.flatten ∘ codePointClusters
          = fun c : List Nat => (codePointClusters c).flatten from rfl]
        rw [hmapid]
    _ = ((splitLoop maxLength fuel r).map codePointClusters).flatten.flatten :=
        List.flatten_flatten.symm
    _ = (codePointClusters r).flatten := by rw [hc]
    _ = r := clusters_flatten r

theorem splitLoop_chunk_cp_le (maxLength : Nat) (hm : 1 ≤ maxLength) :
    ∀ (fuel : Nat) (remaining : List Nat), remaining.length ≤ fuel →
      ∀ chunk ∈ splitLoop maxLength fuel remaining,
        (codePointClusters chunk).length ≤ maxLength := by
  intro fuel
  induction fuel with
  | zero =>
    intro r hr chunk hchunk
    have h0 : r = [] := List.length_eq_zero.mp (Nat.le_zero.mp hr)
    subst h0
    simp [splitLoop] at hchunk
  | succ fuel ih =>
    intro r hr chunk hchunk
    by_cases h0 : r.length = 0
    · rw [splitLoop_succ_nil maxLength fuel r h0] at hchunk
      simp at hchunk
    · by_cases h1 : r.length ≤ maxLength
      · rw [splitLoop_succ_small maxLength fuel r h0 h1] at hchunk
        simp only [List.mem_singleton] at hchunk
        subst hchunk
        exact Nat.le_trans (clusters_length_le chunk) h1
      · by_cases h2 : (codePointClusters r).length ≤ maxLength
        · rw [splitLoop_succ_smallcp maxLength fuel r h0 h1 h2] at hchunk
          simp only [List.mem_singleton] at hchunk
          subst hchunk
          exact h2
        · have hwin : (codePointClusters (((codePointClusters r).take maxLength).flatten)).length
              ≤ maxLength := by
            rw [take_flatten_clusters]
            simp [List.length_take]
          have hwlen1 : 1 ≤ (((codePointClusters r).take maxLength).flatten).length := by
            rcases Nat.eq_zero_or_pos
                (((codePointClusters r).take maxLength).flatten).length with hz | hpos
            · exact absurd (List.length_eq_zero.mp hz) (window_ne_nil r maxLength hm h2)
            · exact hpos
          have hwle1 : (((codePointClusters r).take maxLength).flatten).length ≤ r.length := by
            have hap := window_append r maxLength
            calc (((codePointClusters r).take maxLength).flatten).length
                ≤ (((codePointClusters r).take maxLength).flatten).length
                    + (((codePointClusters r).drop maxLength).flatten).length :=
                  Nat.le_add_right _ _
              _ = (((codePointClusters r).take maxLength).flatten
                    ++ ((codePointClusters r).drop maxLength).flatten).length :=
                  (List.length_append _ _).symm
              _ = r.length := by rw [hap]
          cases hw : lastIndexOfNewline (((codePointClusters r).take maxLength).flatten) with
          | none =>
            rw [splitLoop_succ_nonewline maxLength fuel r h0 h1 h2 hw] at hchunk
            rcases List.mem_cons.mp hchunk with h3 | h3
            · subst h3
              exact hwin
            · have hdrop : (r.drop (((codePointClusters r).take maxLength).flatten).length).length
                  ≤ fuel := by
                rw [List.length_drop]
                omega
              exact ih _ hdrop chunk h3
          | some p =>
            obtain ⟨hplt, hpget⟩ := lastIdx_spec _ p hw
            by_cases hp : 0 < p
            · rw [splitLoop_succ_newline maxLength fuel r p h0 h1 h2 hw hp] at hchunk
              rcases List.mem_cons.mp hchunk with h3 | h3
              · subst h3
                have hsplit := clusters_split_at _ p hpget
                have : (codePointClusters
                    ((((codePointClusters r).take maxLength).flatten).take (p + 1))).length
                    ≤ (codePointClusters (((codePointClusters r).take maxLength).flatten)).length := by
                  rw [hsplit, List.length_append]
                  omega
                exact Nat.le_trans this hwin
              · have hdrop : (r.drop (p + 1)).length ≤ fuel := by
                  rw [List.length_drop]
                  omega
                exact ih _ hdrop chunk h3
            · have hp0 : p = 0 := by omega
              subst hp0
              rw [splitLoop_succ_newline_zero maxLength fuel r h0 h1 h2 hw] at hchunk
              rcases List.mem_cons.mp hchunk with h3 | h3
              · subst h3
                exact hwin
              · have hdrop : (r.drop
                    (((codePointClusters r).take maxLength).flatten).length).length ≤ fuel := by
                  rw [List.length_drop]
                  omega
                exact ih _ hdrop chunk h3

theorem splitLoop_wellFormed (maxLength : Nat) (hm : 1 ≤ maxLength) (fuel : Nat)
    (r : List Nat) (hr : r.length ≤ fuel) (hwf : wellFormedUtf16 r = true) :
    ∀ chunk ∈ splitLoop maxLength fuel r, wellFormedUtf16 chunk = true := by
  intro chunk hchunk
  have hc := splitLoop_clusters maxLength hm fuel r hr
  rw [wellFormedUtf16, List.all_eq_true]
  intro c hcmem
  rw [wellFormedUtf16, List.all_eq_true] at hwf
  apply hwf
  rw [← hc, List.mem_flatten]
  exact ⟨codePointClusters chunk, List.mem_map_of_mem codePointClusters hchunk, hcmem⟩

theorem clusters_replicate_97 : ∀ n : Nat,
    codePointClusters (List.replicate n 97) = List.replicate n [97] := by
  intro n
  induction n with
  | zero => rfl
  | succ m ih =>
    cases m with
    | zero => rfl
    | succ k =>
      rw [List.replicate_succ, List.replicate_succ 97 k]
      rw [clusters_nonpair_cons _ (by decide)]
      rw [← List.replicate_succ, ih]
      simp [List.replicate_succ]

theorem lastIdx_replicate_97 : ∀ n : Nat,
    lastIndexOfNewline (List.replicate n 97) = none := by
  intro n
  induction n with
  | zero => rfl
  | succ m ih =>
    rw [List.replicate_succ]
    unfold lastIndexOfNewline
    rw [ih]
    rfl

theorem flatten_replicate_singleton (u : Nat) : ∀ k : Nat,
    (List.replicate k [u]).flatten = List.replicate k u := by
  intro k
  induction k with
  | zero => rfl
  | succ m ih =>
    rw [List.replicate_succ, List.flatten_cons, ih, List.replicate_succ,
      List.singleton_append]

theorem window_replicate_5000 :
    ((codePointClusters (List.replicate 5000 97)).take TELEGRAM_MAX_LENGTH).flatten
      = List.replicate 4096 97 := by
  rw [clusters_replicate_97, List.take_replicate,
    show TELEGRAM_MAX_LENGTH ⊓ 5000 = 4096 from by decide,
    flatten_replicate_singleton]

theorem splitMessage_replicate_5000 :
    splitMessage (List.replicate 5000 97) TELEGRAM_MAX_LENGTH
      = [List.replicate 4096 97, List.replicate 904 97] := by
  rw [splitMessage, List.length_replicate]
  rw [if_neg (by decide), if_neg (by decide)]
  rw [show (5000 : Nat) = 4999 + 1 from rfl]
  rw [splitLoop_succ_nonewline TELEGRAM_MAX_LENGTH 4999 (List.replicate 5000 97)
    (by rw [List.length_replicate]; decide)
    (by rw [List.length_replicate]; decide)
    (by rw [clusters_replicate_97, List.length_replicate]; decide)
    (by rw [window_replicate_5000]; exact lastIdx_replicate_97 4096)]
  rw [window_replicate_5000, List.length_replicate, List.drop_replicate,
    show (5000 : Nat) - 4096 = 904 from rfl]
  rw [show (4999 : Nat) = 4998 + 1 from rfl]
  rw [splitLoop_succ_small TELEGRAM_MAX_LENGTH 4998 (List.replicate 904 97)
    (by rw [List.length_replicate]; decide)
    (by rw [List.length_replicate]; decide)]

/-- C8: for every text `T` (a JavaScript string as UTF-16 code units) and
cap `C ≥ 1`, `splitMessage` chunks concatenate back to `T` exactly, every
chunk holds at most `C` code points (`Array.from` clusters), chunk
boundaries fall only on code-point boundaries (re-clustering the chunks
reproduces the cluster decomposition of `T`, so no surrogate pair is
split; in particular well-formedness is preserved), and empty `T` yields
one empty chunk. -/
theorem claim_C8_chunking_roundtrip (text : List Nat) (C : Nat) (hC : 1 ≤ C) :
    (splitMessage text C).flatten = text
    ∧ (∀ chunk ∈ splitMessage text C, (codePointClusters chunk).length ≤ C)
    ∧ ((splitMessage text C).map codePointClusters).flatten = codePointClusters text
    ∧ (wellFormedUtf16 text = true →
        ∀ chunk ∈ splitMessage text C, wellFormedUtf16 chunk = true)
    ∧ (text = [] → splitMessage text C = [[]]) := by
  by_cases h0 : text.length = 0
  · have h0e : text = [] := List.length_eq_zero.mp h0
    subst h0e
    have he : splitMessage [] C = [[]] := rfl
    refine ⟨by rw [he]; rfl, ?_, by rw [he]; rfl, ?_, fun _ => he⟩
    · intro chunk hchunk
      rw [he, List.mem_singleton] at hchunk
      subst hchunk
      exact Nat.zero_le C
    · intro _ chunk hchunk
      rw [he, List.mem_singleton] at hchunk
      subst hchunk
      rfl
  · by_cases h1 : text.length ≤ C
    · have he : splitMessage text C = [text] := by
        rw [splitMessage, if_neg h0, if_pos h1]
      rw [he]
      refine ⟨by simp, ?_, by simp, ?_, ?_⟩
      · intro chunk hchunk
        simp only [List.mem_singleton] at hchunk
        subst hchunk
        exact Nat.le_trans (clusters_length_le chunk) h1
      · intro hwf chunk hchunk
        simp only [List.mem_singleton] at hchunk
        subst hchunk
        exact hwf
      · intro hnil
        exact absurd (by rw [hnil]; rfl) h0
    · have he : splitMessage text C = splitLoop C text.length text := by
        rw [splitMessage, if_neg h0, if_neg h1]
      rw [he]
      refine ⟨splitLoop_flatten C hC text.length text (Nat.le_refl _),
        splitLoop_chunk_cp_le C hC text.length text (Nat.le_refl _),
        splitLoop_clusters C hC text.length text (Nat.le_refl _),
        splitLoop_wellFormed C hC text.length text (Nat.le_refl _), ?_⟩
      intro hnil
      exact absurd (by rw [hnil]; rfl) h0

/-- C8 witness: the properties instantiated at the concrete text
"a😀\nb" (with 😀 as the surrogate pair D83D DE00) and cap 2. -/
theorem claim_C8_witness :
    (splitMessage [97, 55357, 56832, 10, 98] 2).flatten = [97, 55357, 56832, 10, 98] :=
  (claim_C8_chunking_roundtrip [97, 55357, 56832, 10, 98] 2 (by decide)).1

/-- C9: in each loop iteration on an over-long remainder, when the last
newline of the C-code-point window sits at a positive position the next
chunk is the window cut directly after that newline (one code point past
the newline's code-point position); with no newline, or a newline only at
position 0, the whole window is emitted.  Concretely, `"a".repeat(5000)`
at the default cap yields chunks of lengths 4096 and 904, and
`"abcde\nfghijklmnop"` at cap 10 yields `["abcde\n", "fghijklmno", "p"]`. -/
theorem claim_C9_newline_preference :
    (∀ (C fuel : Nat) (remaining : List Nat) (p : Nat),
        ¬ remaining.length = 0 → ¬ remaining.length ≤ C →
        ¬ (codePointClusters remaining).length ≤ C →
        lastIndexOfNewline (((codePointClusters remaining).take C).flatten) = some p →
        0 < p →
        splitLoop C (fuel + 1) remaining
          = (((codePointClusters remaining).take C).flatten).take (p + 1)
              :: splitLoop C fuel (remaining.drop (p + 1))
          ∧ (codePointClusters
                ((((codePointClusters remaining).take C).flatten).take (p + 1))).length
            = (codePointClusters
                ((((codePointClusters remaining).take C).flatten).take p)).length + 1)
    ∧ (∀ (C fuel : Nat) (remaining : List Nat),
        ¬ remaining.length = 0 → ¬ remaining.length ≤ C →
        ¬ (codePointClusters remaining).length ≤ C →
        (lastIndexOfNewline (((codePointClusters remaining).take C).flatten) = none ∨
          lastIndexOfNewline (((codePointClusters remaining).take C).flatten) = some 0) →
        splitLoop C (fuel + 1) remaining
          = ((codePointClusters remaining).take C).flatten
              :: splitLoop C fuel
                  (remaining.drop (((codePointClusters remaining).take C).flatten).length))
    ∧ (splitMessage (List.replicate 5000 97) TELEGRAM_MAX_LENGTH).map List.length
        = [4096, 904]
    ∧ splitMessage [97, 98, 99, 100, 101, 10, 102, 103, 104, 105, 106, 107, 108,
          109, 110, 111, 112] 10
        = [[97, 98, 99, 100, 101, 10],
            [102, 103, 104, 105, 106, 107, 108, 109, 110, 111], [112]] := by
  refine ⟨?_, ?_, ?_, ?_⟩
  · intro C fuel remaining p h0 h1 h2 hw hp
    obtain ⟨hplt, hpget⟩ := lastIdx_spec _ p hw
    refine ⟨splitLoop_succ_newline C fuel remaining p h0 h1 h2 hw hp, ?_⟩
    have htake : (((codePointClusters remaining).take C).flatten).take (p + 1)
        = (((codePointClusters remaining).take C).flatten).take p ++ [10] := by
      rw [List.take_succ, hpget]
      rfl
    rw [htake, clusters_append_single _ 10 (by decide), List.length_append]
    rfl
  · intro C fuel remaining h0 h1 h2 hw
    rcases hw with hw | hw
    · exact splitLoop_succ_nonewline C fuel remaining h0 h1 h2 hw
    · exact splitLoop_succ_newline_zero C fuel remaining h0 h1 h2 hw
  · rw [splitMessage_replicate_5000]
    rw [List.map_cons, List.map_cons, List.map_nil, List.length_replicate,
      List.length_replicate]
  · decide

/-- C9 witness: the newline-preference step instantiated at the concrete
remainder "a\nbc" with cap 2 and fuel 3: the window is "a\n" with its last
newline at position 1, so the chunk is exactly "a\n". -/
theorem claim_C9_witness :
    splitLoop 2 (3 + 1) [97, 10, 98, 99]
        = (((codePointClusters [97, 10, 98, 99]).take 2).flatten).take (1 + 1)
            :: splitLoop 2 3 ([97, 10, 98, 99].drop (1 + 1))
      ∧ (codePointClusters
            ((((codePointClusters [97, 10, 98, 99]).take 2).flatten).take (1 + 1))).length
        = (codePointClusters
            ((((codePointClusters [97, 10, 98, 99]).take 2).flatten).take 1)).length + 1 :=
  claim_C9_newline_preference.1 2 3 [97, 10, 98, 99] 1 (by decide) (by decide)
    (by decide) (by decide) (by decide)

end SplitMsg

namespace ChatRouter

theorem upsert_frame (s : StoreState) (now platform platformChatId label : String)
    (chatType : Option String) :
    (upsertConversation s now platform platformChatId label chatType).2.timeline = s.timeline
    ∧ (upsertConversation s now platform platformChatId label chatType).2.nextTimelineId
        = s.nextTimelineId
    ∧ (upsertConversation s now platform platformChatId label chatType).1.label = label := by
  rw [upsertConversation]
  cases s.conversations.find? (convMatches platform platformChatId) with
  | none => exact ⟨rfl, rfl, rfl⟩
  | some existing => exact ⟨rfl, rfl, rfl⟩

theorem ingestTransaction_entry (s : StoreState) (now : String)
    (entryData : TimelineEntryInput) (label : String) :
    (ingestTransaction s now entryData label).1
      = { id := s.nextTimelineId
          direction := entryData.direction
          platform := entryData.platform
          platformMessageId := entryData.platformMessageId
          platformChatId := entryData.platformChatId
          platformChatType := entryData.platformChatType
          senderName := entryData.senderName
          senderId := entryData.senderId
          text := entryData.text
          timestamp := entryData.timestamp
          platformMeta := entryData.platformMeta
          createdAt := now } := rfl

theorem ingestTransaction_nextTimelineId (s : StoreState) (now : String)
    (entryData : TimelineEntryInput) (label : String) :
    (ingestTransaction s now entryData label).2.nextTimelineId = s.nextTimelineId + 1 := by
  rw [ingestTransaction]
  exact (upsert_frame _ _ _ _ _ _).2.1

theorem ingestTransaction_timeline (s : StoreState) (now : String)
    (entryData : TimelineEntryInput) (label : String) :
    (ingestTransaction s now entryData label).2.timeline
      = s.timeline ++ [(ingestTransaction s now entryData label).1] := by
  rw [ingestTransaction]
  exact (upsert_frame _ _ _ _ _ _).1

theorem runIngests_ids (ops : List IngestOp) : ∀ s : StoreState,
    ((runIngests s ops).1.map (fun e => e.id)) = List.range' s.nextTimelineId ops.length
    ∧ (runIngests s ops).2.nextTimelineId = s.nextTimelineId + ops.length := by
  induction ops with
  | nil => intro s; simp [runIngests]
  | cons op rest ih =>
    intro s
    simp only [runIngests, List.map_cons, List.length_cons]
    obtain ⟨ih1, ih2⟩ := ih (ingestTransaction s op.now op.entry op.label).2
    rw [ingestTransaction_nextTimelineId] at ih1 ih2
    constructor
    · rw [ih1, ingestTransaction_entry, List.range'_succ]
    · rw [ih2]
      omega

/-- C2: running any sequence of n ingest operations (inbound or outbound —
both reach the store through `ingestTransaction`) on a fresh store assigns
the timeline ids 1, 2, …, n in completion order; in particular the ids are
strictly increasing and pairwise distinct across platforms. -/
theorem claim_C2_monotonic_ids (ops : List IngestOp) :
    ((runIngests initialState ops).1.map (fun e => e.id)) = List.range' 1 ops.length
    ∧ ((runIngests initialState ops).1.map (fun e => e.id)).Pairwise (· < ·)
    ∧ ((runIngests initialState ops).1.map (fun e => e.id)).Nodup := by
  have h := (runIngests_ids ops initialState).1
  refine ⟨h, ?_, ?_⟩
  · rw [h]
    exact List.pairwise_lt_range' 1 ops.length
  · rw [h]
    exact List.nodup_range' 1 ops.length

/-- C2 witness: three concrete ingests (two platforms, two conversations)
get ids [1, 2, 3]. -/
theorem claim_C2_witness :
    ((runIngests initialState
        [⟨"t1", ⟨"in", "telegram", "m1", "c1", some "private", "Alice", "u1",
            some "a", some 1, none⟩, "Alice"⟩,
          ⟨"t2", ⟨"out", "telegram", "router-1", "c1", none, "System", "system",
            some "b", some 2, none⟩, "System"⟩,
          ⟨"t3", ⟨"in", "discord", "m2", "d1", none, "Bob", "u2",
            some "c", some 3, none⟩, "Bob"⟩]).1.map (fun e => e.id))
      = List.range' 1 3 :=
  (claim_C2_monotonic_ids _).1

/-- C1: the compound write of `ingestTransaction` is not atomic under
crash: the store persists once inside `insertTimelineEntry` and again
inside `upsertConversation`.  After the first persisted state of an ingest
into a fresh store, the timeline row (id 1) is present while
`getConversation` still returns none — violating "both present or both
absent". -/
theorem claim_C1_crash_counterexample :
    ∃ s1, (ingestPersistedStates initialState "2026-01-01T00:00:00.000Z"
        ⟨"in", "telegram", "m1", "c1", some "private", "Alice", "u1",
          some "hi", some 1700000000000, none⟩ "Alice").head? = some s1
      ∧ ((getTimeline s1 "telegram" "c1" none none).map (fun e => e.id) = [1])
      ∧ getConversation s1 "telegram" "c1" = none := by
  refine ⟨_, rfl, ?_, ?_⟩ <;> decide

/-- C10: `triggerAcsJob` fires no outbound request — and returns false —
for an entry that is not inbound or has null/empty text; for every fetch
outcome it resolves to a boolean (the try/catch never rethrows); and the
`POST /messages` route answers 201 for a valid body whatever the trigger
outcome is. -/
theorem claim_C10_trigger_gating (outcome : AcsTrigger.FetchOutcome)
    (config : AcsTrigger.AcsTriggerConfig) (entry : TimelineEntry) :
    ((entry.direction ≠ "in" ∨ entry.text = none ∨ entry.text = some "") →
        AcsTrigger.triggerAcsJob outcome config entry = (false, false))
    ∧ ((AcsTrigger.triggerAcsJob outcome config entry).1 = true
        ∨ (AcsTrigger.triggerAcsJob outcome config entry).1 = false)
    ∧ (∀ (st : ServiceState) (now : String)
          (acsConfig : Option AcsTrigger.AcsTriggerConfig) (body : InboundMessage),
        validateInbound body = none →
        (AcsTrigger.postMessages st now outcome acsConfig body).1 = 201) := by
  refine ⟨?_, ?_, ?_⟩
  · intro h
    rcases h with h | h | h
    · simp only [AcsTrigger.triggerAcsJob, if_pos h]
    · simp only [AcsTrigger.triggerAcsJob]
      by_cases hdir : entry.direction ≠ "in"
      · rw [if_pos hdir]
      · rw [if_neg hdir, if_pos (Or.inl h)]
    · simp only [AcsTrigger.triggerAcsJob]
      by_cases hdir : entry.direction ≠ "in"
      · rw [if_pos hdir]
      · rw [if_neg hdir, if_pos (Or.inr h)]
  · cases h : (AcsTrigger.triggerAcsJob outcome config entry).1
    · exact Or.inr rfl
    · exact Or.inl rfl
  · intro st now acsConfig body hvalid
    simp only [AcsTrigger.postMessages, ingestMessage, hvalid]

/-- C10 witness: an outbound entry fires no request even on a healthy
endpoint, and a valid inbound body is still answered 201 when the trigger
endpoint is unreachable. -/
theorem claim_C10_witness :
    AcsTrigger.triggerAcsJob (AcsTrigger.FetchOutcome.success (some "r"))
        ⟨"http://acs", "job", "http://router"⟩
        ⟨1, "out", "telegram", "router-1", "c1", none, "System", "system",
          some "hi", some 5, none, "t"⟩
      = (false, false)
    ∧ (AcsTrigger.postMessages (mkService initialState) "t"
          AcsTrigger.FetchOutcome.networkError
          (some ⟨"http://acs", "job", "http://router"⟩)
          ⟨"telegram", "m1", "c1", some "private", "Alice", "u1",
            some "hi", some 1700000000000, none⟩).1 = 201 := by
  constructor
  · exact (claim_C10_trigger_gating _ _ _).1 (Or.inl (by decide))
  · exact (claim_C10_trigger_gating AcsTrigger.FetchOutcome.networkError
      ⟨"http://acs", "job", "http://router"⟩
      ⟨1, "out", "telegram", "router-1", "c1", none, "System", "system",
        some "hi", some 5, none, "t"⟩).2.2 _ _ _ _ (by decide)

/-- C4: `ingestMessage` throws exactly when one of the five required
string fields is absent/empty or `timestamp` is null/undefined; the thrown
message names an offending field; `timestamp = 0` passes (the check is
null-ness, not falsy-ness — it only compares against none); `text` is
never consulted by validation and is stored unchanged (absent text becomes
the null of the row); and a validation throw leaves the service state
untouched. -/
theorem claim_C4_validation (st : ServiceState) (now : String) (msg : InboundMessage) :
    ((∃ e, (ingestMessage st now msg).1 = Except.error e) ↔
        (msg.platform = "" ∨ msg.platformMessageId = "" ∨ msg.platformChatId = ""
          ∨ msg.senderName = "" ∨ msg.senderId = "" ∨ msg.timestamp = none))
    ∧ (∀ e, (ingestMessage st now msg).1 = Except.error e →
        (ingestMessage st now msg).2 = st
        ∧ ((e = "ingestMessage: platform is required" ∧ msg.platform = "")
          ∨ (e = "ingestMessage: platformMessageId is required" ∧ msg.platformMessageId = "")
          ∨ (e = "ingestMessage: platformChatId is required" ∧ msg.platformChatId = "")
          ∨ (e = "ingestMessage: senderName is required" ∧ msg.senderName = "")
          ∨ (e = "ingestMessage: senderId is required" ∧ msg.senderId = "")
          ∨ (e = "ingestMessage: timestamp is required" ∧ msg.timestamp = none)))
    ∧ (∀ entry, (ingestMessage st now msg).1 = Except.ok entry →
        entry.text = msg.text ∧ entry.timestamp = msg.timestamp) := by
  rw [ingestMessage, validateInbound]
  split_ifs with h1 h2 h3 h4 h5 h6
  · exact ⟨⟨fun _ => Or.inl h1, fun _ => ⟨_, rfl⟩⟩,
      fun e he => ⟨rfl, Or.inl ⟨(Except.error.injEq _ _).mp he.symm, h1⟩⟩,
      fun entry he => by simp at he⟩
  · exact ⟨⟨fun _ => Or.inr (Or.inl h2), fun _ => ⟨_, rfl⟩⟩,
      fun e he => ⟨rfl, Or.inr (Or.inl ⟨(Except.error.injEq _ _).mp he.symm, h2⟩)⟩,
      fun entry he => by simp at he⟩
  · exact ⟨⟨fun _ => Or.inr (Or.inr (Or.inl h3)), fun _ => ⟨_, rfl⟩⟩,
      fun e he => ⟨rfl, Or.inr (Or.inr (Or.inl ⟨(Except.error.injEq _ _).mp he.symm, h3⟩))⟩,
      fun entry he => by simp at he⟩
  · exact ⟨⟨fun _ => Or.inr (Or.inr (Or.inr (Or.inl h4))), fun _ => ⟨_, rfl⟩⟩,
      fun e he => ⟨rfl,
        Or.inr (Or.inr (Or.inr (Or.inl ⟨(Except.error.injEq _ _).mp he.symm, h4⟩)))⟩,
      fun entry he => by simp at he⟩
  · exact ⟨⟨fun _ => Or.inr (Or.inr (Or.inr (Or.inr (Or.inl h5)))), fun _ => ⟨_, rfl⟩⟩,
      fun e he => ⟨rfl,
        Or.inr (Or.inr (Or.inr (Or.inr (Or.inl ⟨(Except.error.injEq _ _).mp he.symm, h5⟩))))⟩,
      fun entry he => by simp at he⟩
  · exact ⟨⟨fun _ => Or.inr (Or.inr (Or.inr (Or.inr (Or.inr h6)))), fun _ => ⟨_, rfl⟩⟩,
      fun e he => ⟨rfl,
        Or.inr (Or.inr (Or.inr (Or.inr (Or.inr ⟨(Except.error.injEq _ _).mp he.symm, h6⟩))))⟩,
      fun entry he => by simp at he⟩
  · refine ⟨⟨fun he => ?_, fun hbad => ?_⟩, fun e he => by simp at he, fun entry he => ?_⟩
    · obtain ⟨e, he⟩ := he
      simp at he
    · rcases hbad with h | h | h | h | h | h
      · exact absurd h h1
      · exact absurd h h2
      · exact absurd h h3
      · exact absurd h h4
      · exact absurd h h5
      · exact absurd h h6
    · have he2 : entry = (ingestTransaction st.store now
          { direction := "in", platform := msg.platform,
            platformMessageId := msg.platformMessageId,
            platformChatId := msg.platformChatId,
            platformChatType := msg.platformChatType, senderName := msg.senderName,
            senderId := msg.senderId, text := msg.text, timestamp := msg.timestamp,
            platformMeta := msg.platformMeta } msg.senderName).1 := by
        simpa using he.symm
      rw [he2, ingestTransaction_entry]
      exact ⟨rfl, rfl⟩

/-- C4 witness: a message with empty senderName is rejected with the
field-naming error and an unchanged store, while the same message with
senderName "Alice" and timestamp 0 is accepted. -/
theorem claim_C4_witness :
    ((ingestMessage (mkService initialState) "t"
        ⟨"telegram", "m1", "c1", none, "", "u1", none, some 0, none⟩).1
      = Except.error "ingestMessage: senderName is required"
      ∧ (ingestMessage (mkService initialState) "t"
          ⟨"telegram", "m1", "c1", none, "", "u1", none, some 0, none⟩).2
        = mkService initialState)
    ∧ (∃ entry, (ingestMessage (mkService initialState) "t"
        ⟨"telegram", "m1", "c1", none, "Alice", "u1", none, some 0, none⟩).1
      = Except.ok entry ∧ entry.text = none) := by
  have h1 := (claim_C4_validation (mkService initialState) "t"
    ⟨"telegram", "m1", "c1", none, "", "u1", none, some 0, none⟩).2.1
  have h2 := (claim_C4_validation (mkService initialState) "t"
    ⟨"telegram", "m1", "c1", none, "Alice", "u1", none, some 0, none⟩).2.2
  refine ⟨⟨rfl, (h1 _ rfl).1⟩, ?_⟩
  exact ⟨_, rfl, (h2 _ rfl).1⟩

theorem recordResponse_success (st : ServiceState) (now : String) (nowMs : Nat)
    (params : RecordResponseParams) (h1 : ¬ params.platform = "")
    (h2 : ¬ params.platformChatId = "") (h3 : ¬ params.text = "") :
    recordResponse st now nowMs params
      = (Except.ok (ingestTransaction st.store now
            { direction := "out", platform := params.platform,
              platformMessageId := "router-" ++ toString (st.syntheticIdCounter + 1),
              platformChatId := params.platformChatId, platformChatType := none,
              senderName := "System", senderId := "system", text := some params.text,
              timestamp := some nowMs,
              platformMeta := params.inReplyTo.map jsonInReplyTo } "System").1,
          { store := (ingestTransaction st.store now
              { direction := "out", platform := params.platform,
                platformMessageId := "router-" ++ toString (st.syntheticIdCounter + 1),
                platformChatId := params.platformChatId, platformChatType := none,
                senderName := "System", senderId := "system", text := some params.text,
                timestamp := some nowMs,
                platformMeta := params.inReplyTo.map jsonInReplyTo } "System").2,
            syntheticIdCounter := st.syntheticIdCounter + 1 }) := by
  simp only [recordResponse, if_neg h1, if_neg h2, if_neg h3]

theorem recordResponse_counter (st : ServiceState) (now : String) (nowMs : Nat)
    (params : RecordResponseParams) (h1 : ¬ params.platform = "")
    (h2 : ¬ params.platformChatId = "") (h3 : ¬ params.text = "") :
    (recordResponse st now nowMs params).2.syntheticIdCounter
      = st.syntheticIdCounter + 1 := by
  simp only [recordResponse, if_neg h1, if_neg h2, if_neg h3]

theorem runResponses_nth (calls : List ResponseCall) : ∀ (st : ServiceState),
    (∀ c ∈ calls, c.params.platform ≠ "" ∧ c.params.platformChatId ≠ ""
      ∧ c.params.text ≠ "") →
    ∀ (N : Nat) (c : ResponseCall), calls[N]? = some c →
      ∃ entry, (runResponses st calls).1[N]? = some (Except.ok entry)
        ∧ entry.platformMessageId = "router-" ++ toString (st.syntheticIdCounter + N + 1)
        ∧ entry.direction = "out" ∧ entry.senderName = "System"
        ∧ entry.senderId = "system" ∧ entry.platformChatType = none
        ∧ entry.timestamp = some c.nowMs
        ∧ entry.platformMeta = c.params.inReplyTo.map jsonInReplyTo := by
  induction calls with
  | nil =>
    intro st _ N c hN
    simp at hN
  | cons d rest ih =>
    intro st hvalid N c hN
    obtain ⟨hd1, hd2, hd3⟩ := hvalid d (List.mem_cons_self d rest)
    have hstep := recordResponse_success st d.now d.nowMs d.params hd1 hd2 hd3
    cases N with
    | zero =>
      simp only [List.getElem?_cons_zero, Option.some_inj] at hN
      subst hN
      refine ⟨(ingestTransaction st.store d.now
          { direction := "out", platform := d.params.platform,
            platformMessageId := "router-" ++ toString (st.syntheticIdCounter + 1),
            platformChatId := d.params.platformChatId, platformChatType := none,
            senderName := "System", senderId := "system", text := some d.params.text,
            timestamp := some d.nowMs,
            platformMeta := d.params.inReplyTo.map jsonInReplyTo } "System").1, ?_, ?_⟩
      · simp only [runResponses, hstep, List.getElem?_cons_zero]
      · rw [ingestTransaction_entry]
        exact ⟨rfl, rfl, rfl, rfl, rfl, rfl, rfl⟩
    | succ M =>
      simp only [List.getElem?_cons_succ] at hN
      have hvr : ∀ x ∈ rest, x.params.platform ≠ "" ∧ x.params.platformChatId ≠ ""
          ∧ x.params.text ≠ "" :=
        fun x hx => hvalid x (List.mem_cons_of_mem d hx)
      obtain ⟨entry, he, hmid, hrest⟩ :=
        ih (recordResponse st d.now d.nowMs d.params).2 hvr M c hN
      refine ⟨entry, ?_, ?_, hrest⟩
      · simpa only [runResponses, List.getElem?_cons_succ] using he
      · rw [recordResponse_counter st d.now d.nowMs d.params hd1 hd2 hd3] at hmid
        rw [show st.syntheticIdCounter + 1 + M + 1
          = st.syntheticIdCounter + (M + 1) + 1 from by omega] at hmid
        exact hmid

/-- C5: on a fresh service instance, the N-th successful `recordResponse`
(counting from 1) returns an outbound entry with synthetic
platformMessageId "router-N", senderName "System", senderId "system", null
platformChatType, timestamp the current `Date.now()`, and platformMeta the
serialized `\x7b"inReplyTo": v\x7d` when `inReplyTo = v` was supplied and null
otherwise. -/
theorem claim_C5_router_ids (calls : List ResponseCall) (st : ServiceState)
    (hfresh : st.syntheticIdCounter = 0)
    (hvalid : ∀ c ∈ calls, c.params.platform ≠ "" ∧ c.params.platformChatId ≠ ""
      ∧ c.params.text ≠ "") :
    ∀ (N : Nat) (c : ResponseCall), calls[N]? = some c →
      ∃ entry, (runResponses st calls).1[N]? = some (Except.ok entry)
        ∧ entry.platformMessageId = "router-" ++ toString (N + 1)
        ∧ entry.direction = "out" ∧ entry.senderName = "System"
        ∧ entry.senderId = "system" ∧ entry.platformChatType = none
        ∧ entry.timestamp = some c.nowMs
        ∧ entry.platformMeta = c.params.inReplyTo.map jsonInReplyTo := by
  intro N c hN
  obtain ⟨entry, h⟩ := runResponses_nth calls st hvalid N c hN
  rw [hfresh] at h
  exact ⟨entry, by simpa using h⟩

/-- C5 witness: two concrete calls; the second mints "router-2", carries
its own Date.now(), and serializes the supplied inReplyTo. -/
theorem claim_C5_witness :
    ∃ entry, (runResponses (mkService initialState)
        [⟨"t1", 11, ⟨"telegram", "c1", "hi", none⟩⟩,
          ⟨"t2", 22, ⟨"telegram", "c1", "there", some 7⟩⟩]).1[1]?
        = some (Except.ok entry)
      ∧ entry.platformMessageId = "router-" ++ toString (1 + 1)
      ∧ entry.direction = "out" ∧ entry.senderName = "System"
      ∧ entry.senderId = "system" ∧ entry.platformChatType = none
      ∧ entry.timestamp = some 22
      ∧ entry.platformMeta = (some 7 : Option Nat).map jsonInReplyTo :=
  claim_C5_router_ids
    [⟨"t1", 11, ⟨"telegram", "c1", "hi", none⟩⟩,
      ⟨"t2", 22, ⟨"telegram", "c1", "there", some 7⟩⟩]
    (mkService initialState) rfl
    (by intro c hc; fin_cases hc <;> exact ⟨by decide, by decide, by decide⟩)
    1 ⟨"t2", 22, ⟨"telegram", "c1", "there", some 7⟩⟩ rfl

theorem find?_updateFirst {α : Type} (p : α → Bool) (f : α → α) : ∀ (l : List α) (x : α),
    l.find? p = some x → p (f x) = true →
    (updateFirst p f l).find? p = some (f x) := by
  intro l
  induction l with
  | nil => intro x hx _; simp at hx
  | cons y ys ih =>
    intro x hx hfx
    by_cases hy : p y = true
    · rw [List.find?_cons_of_pos _ hy, Option.some_inj] at hx
      subst hx
      rw [updateFirst, if_pos hy, List.find?_cons_of_pos _ hfx]
    · rw [List.find?_cons_of_neg _ (by simpa using hy)] at hx
      rw [updateFirst, if_neg (by simpa using hy),
        List.find?_cons_of_neg _ (by simpa using hy)]
      exact ih x hx hfx

theorem updateFirst_decomp {α : Type} (p : α → Bool) (f : α → α) : ∀ (l : List α) (x : α),
    l.find? p = some x →
    ∃ l1 l2, l = l1 ++ x :: l2 ∧ (∀ d ∈ l1, p d = false)
      ∧ updateFirst p f l = l1 ++ f x :: l2 := by
  intro l
  induction l with
  | nil => intro x hx; simp at hx
  | cons y ys ih =>
    intro x hx
    by_cases hy : p y = true
    · rw [List.find?_cons_of_pos _ hy, Option.some_inj] at hx
      subst hx
      exact ⟨[], ys, rfl, by simp, by rw [updateFirst, if_pos hy]; rfl⟩
    · rw [List.find?_cons_of_neg _ (by simpa using hy)] at hx
      obtain ⟨l1, l2, hl, hfalse, hupd⟩ := ih x hx
      refine ⟨y :: l1, l2, by rw [hl]; rfl, ?_, ?_⟩
      · intro d hd
        rcases List.mem_cons.mp hd with rfl | hd
        · simpa using hy
        · exact hfalse d hd
      · rw [updateFirst, if_neg (by simpa using hy), hupd]
        rfl

theorem convMatches_updated (platform platformChatId : String) (existing : Conversation)
    (hmatch : convMatches platform platformChatId existing = true)
    (now label : String) (chatType : Option String) :
    convMatches platform platformChatId
      { existing with
        lastMessageAt := now
        messageCount := existing.messageCount + 1
        label := label
        platformChatType :=
          match chatType with
          | some t => some t
          | none => existing.platformChatType } = true := hmatch

theorem upsert_getConversation (s : StoreState) (now platform platformChatId label : String)
    (chatType : Option String) :
    getConversation (upsertConversation s now platform platformChatId label chatType).2
        platform platformChatId
      = some (upsertConversation s now platform platformChatId label chatType).1 := by
  rcases hfind : s.conversations.find? (convMatches platform platformChatId) with _ | existing
  · simp only [upsertConversation, hfind, getConversation]
    rw [List.find?_append, hfind]
    simp [convMatches]
  · have hmatch : convMatches platform platformChatId existing = true :=
      List.find?_some hfind
    simp only [upsertConversation, hfind, getConversation]
    exact find?_updateFirst _ _ _ _ hfind
      (convMatches_updated platform platformChatId existing hmatch now label chatType)

theorem upsert_label (s : StoreState) (now platform platformChatId label : String)
    (chatType : Option String) :
    (upsertConversation s now platform platformChatId label chatType).1.label = label :=
  (upsert_frame s now platform platformChatId label chatType).2.2

theorem insert_conversations (s : StoreState) (now : String) (e : TimelineEntryInput) :
    (insertTimelineEntry s now e).2.conversations = s.conversations := rfl

theorem ingest_getConversation (s : StoreState) (now : String) (e : TimelineEntryInput)
    (label : String) :
    ∃ c, getConversation (ingestTransaction s now e label).2 e.platform e.platformChatId
          = some c
      ∧ c.label = label
      ∧ (getConversation s e.platform e.platformChatId = none → c.messageCount = 1)
      ∧ (∀ c0, getConversation s e.platform e.platformChatId = some c0 →
          c.id = c0.id ∧ c.messageCount = c0.messageCount + 1) := by
  rw [ingestTransaction]
  refine ⟨_, upsert_getConversation _ _ _ _ _ _, upsert_label _ _ _ _ _ _, ?_, ?_⟩
  · intro hnone
    have hfind : (insertTimelineEntry s now e).2.conversations.find?
        (convMatches e.platform e.platformChatId) = none := hnone
    simp only [upsertConversation, hfind]
  · intro c0 hc0
    have hfind : (insertTimelineEntry s now e).2.conversations.find?
        (convMatches e.platform e.platformChatId) = some c0 := hc0
    simp [upsertConversation, hfind]

/-- C6: after any successful `recordResponse`, the conversation for the
given (platform, platformChatId) exists and carries label "System": a
fresh conversation is created with that label, and an existing one — the
same row, with its message count bumped — has its label overwritten to
"System" whatever it was before. -/
theorem claim_C6_system_label (st : ServiceState) (now : String) (nowMs : Nat)
    (params : RecordResponseParams) (h1 : ¬ params.platform = "")
    (h2 : ¬ params.platformChatId = "") (h3 : ¬ params.text = "") :
    ∃ c, getConversation (recordResponse st now nowMs params).2.store
          params.platform params.platformChatId = some c
      ∧ c.label = "System"
      ∧ (getConversation st.store params.platform params.platformChatId = none →
          c.messageCount = 1)
      ∧ (∀ c0, getConversation st.store params.platform params.platformChatId = some c0 →
          c.id = c0.id ∧ c.messageCount = c0.messageCount + 1) := by
  rw [recordResponse_success st now nowMs params h1 h2 h3]
  exact ingest_getConversation st.store now
    { direction := "out", platform := params.platform,
      platformMessageId := "router-" ++ toString (st.syntheticIdCounter + 1),
      platformChatId := params.platformChatId, platformChatType := none,
      senderName := "System", senderId := "system", text := some params.text,
      timestamp := some nowMs,
      platformMeta := params.inReplyTo.map jsonInReplyTo } "System"

/-- C6 witness: a conversation created by an inbound ingest with label
"Alice" is relabeled "System" by a recorded response, in place (same id,
count bumped to 2). -/
theorem claim_C6_witness :
    ∃ c, getConversation (recordResponse
          { store := (runIngests initialState
              [⟨"t1", ⟨"in", "telegram", "m1", "c1", some "private", "Alice", "u1",
                  some "hi", some 1, none⟩, "Alice"⟩]).2,
            syntheticIdCounter := 0 } "t2" 22
          ⟨"telegram", "c1", "yo", some 1⟩).2.store "telegram" "c1" = some c
      ∧ c.label = "System"
      ∧ (∀ c0, getConversation (runIngests initialState
            [⟨"t1", ⟨"in", "telegram", "m1", "c1", some "private", "Alice", "u1",
                some "hi", some 1, none⟩, "Alice"⟩]).2 "telegram" "c1" = some c0 →
          c.id = c0.id ∧ c.messageCount = c0.messageCount + 1) := by
  obtain ⟨c, hc1, hc2, _, hc4⟩ := claim_C6_system_label
    { store := (runIngests initialState
        [⟨"t1", ⟨"in", "telegram", "m1", "c1", some "private", "Alice", "u1",
            some "hi", some 1, none⟩, "Alice"⟩]).2,
      syntheticIdCounter := 0 } "t2" 22 ⟨"telegram", "c1", "yo", some 1⟩
    (by decide) (by decide) (by decide)
  exact ⟨c, hc1, hc2, hc4⟩

/-- C7: an ingest into an existing conversation updates exactly the first
matching conversation in place — only `messageCount` (+1),
`lastMessageAt`, `label` change, and `platformChatType` only when the
ingest supplies a non-null value (a null supplied type keeps the stored
one); `id`, `platform`, `platformChatId`, `firstSeenAt` are untouched, all
other conversations are untouched, and the conversation-id counter does
not advance. -/
theorem claim_C7_conditional_update (s : StoreState) (now : String)
    (e : TimelineEntryInput) (label : String) (c : Conversation)
    (hfind : s.conversations.find? (convMatches e.platform e.platformChatId) = some c) :
    ∃ l1 l2 c',
      s.conversations = l1 ++ c :: l2
      ∧ (∀ d ∈ l1, convMatches e.platform e.platformChatId d = false)
      ∧ (ingestTransaction s now e label).2.conversations = l1 ++ c' :: l2
      ∧ c'.id = c.id ∧ c'.platform = c.platform ∧ c'.platformChatId = c.platformChatId
      ∧ c'.firstSeenAt = c.firstSeenAt
      ∧ c'.messageCount = c.messageCount + 1 ∧ c'.label = label ∧ c'.lastMessageAt = now
      ∧ c'.platformChatType
          = (match e.platformChatType with
              | some t => some t
              | none => c.platformChatType)
      ∧ (ingestTransaction s now e label).2.nextConversationId = s.nextConversationId := by
  have hfind2 : (insertTimelineEntry s now e).2.conversations.find?
      (convMatches e.platform e.platformChatId) = some c := hfind
  obtain ⟨l1, l2, hdecomp, hfalse, hupd⟩ :=
    updateFirst_decomp (convMatches e.platform e.platformChatId)
      (fun _ =>
        { c with
          lastMessageAt := now
          messageCount := c.messageCount + 1
          label := label
          platformChatType :=
            match e.platformChatType with
            | some t => some t
            | none => c.platformChatType })
      s.conversations c hfind
  refine ⟨l1, l2,
    { c with
      lastMessageAt := now
      messageCount := c.messageCount + 1
      label := label
      platformChatType :=
        match e.platformChatType with
        | some t => some t
        | none => c.platformChatType },
    hdecomp, hfalse, ?_, rfl, rfl, rfl, rfl, rfl, rfl, rfl, rfl, ?_⟩
  · rw [ingestTransaction]
    show (upsertConversation (insertTimelineEntry s now e).2 now e.platform
        e.platformChatId label e.platformChatType).2.conversations = _
    simp only [upsertConversation, hfind2]
    exact hupd
  · rw [ingestTransaction]
    show (upsertConversation (insertTimelineEntry s now e).2 now e.platform
        e.platformChatId label e.platformChatType).2.nextConversationId = _
    simp only [upsertConversation, hfind2]
    rfl

/-- C7 witness: a second ingest into the conversation created by a first
ingest (stored chat type "private") supplying a null chat type keeps the
stored type "private", bumps the count to 2, and leaves id/firstSeenAt
alone. -/
theorem claim_C7_witness :
    ∃ l1 l2 c',
      (runIngests initialState [⟨"t1", ⟨"in", "telegram", "m1", "c1", some "private",
          "Alice", "u1", some "hi", some 1, none⟩, "Alice"⟩]).2.conversations
        = l1 ++ (⟨1, "telegram", "c1", some "private", "Alice", "t1", "t1", 1⟩ :
            Conversation) :: l2
      ∧ (∀ d ∈ l1, convMatches "telegram" "c1" d = false)
      ∧ (ingestTransaction (runIngests initialState [⟨"t1", ⟨"in", "telegram", "m1", "c1",
            some "private", "Alice", "u1", some "hi", some 1, none⟩, "Alice"⟩]).2 "t2"
            ⟨"in", "telegram", "m2", "c1", none, "Alice", "u1", some "again", some 2, none⟩
            "Alice").2.conversations = l1 ++ c' :: l2
      ∧ c'.id = 1 ∧ c'.platform = "telegram" ∧ c'.platformChatId = "c1"
      ∧ c'.firstSeenAt = "t1"
      ∧ c'.messageCount = 1 + 1 ∧ c'.label = "Alice" ∧ c'.lastMessageAt = "t2"
      ∧ c'.platformChatType = some "private"
      ∧ (ingestTransaction (runIngests initialState [⟨"t1", ⟨"in", "telegram", "m1", "c1",
            some "private", "Alice", "u1", some "hi", some 1, none⟩, "Alice"⟩]).2 "t2"
            ⟨"in", "telegram", "m2", "c1", none, "Alice", "u1", some "again", some 2, none⟩
            "Alice").2.nextConversationId
          = (runIngests initialState [⟨"t1", ⟨"in", "telegram", "m1", "c1", some "private",
              "Alice", "u1", some "hi", some 1, none⟩, "Alice"⟩]).2.nextConversationId :=
  claim_C7_conditional_update
    (runIngests initialState [⟨"t1", ⟨"in", "telegram", "m1", "c1", some "private",
        "Alice", "u1", some "hi", some 1, none⟩, "Alice"⟩]).2 "t2"
    ⟨"in", "telegram", "m2", "c1", none, "Alice", "u1", some "again", some 2, none⟩
    "Alice" ⟨1, "telegram", "c1", some "private", "Alice", "t1", "t1", 1⟩ (by decide)

theorem insertByIdDesc_perm (e : TimelineEntry) : ∀ l : List TimelineEntry,
    (insertByIdDesc e l).Perm (e :: l) := by
  intro l
  induction l with
  | nil => exact List.Perm.refl _
  | cons x xs ih =>
    rw [insertByIdDesc]
    by_cases h : e.id < x.id
    · rw [if_pos h]
      exact (List.Perm.cons x ih).trans (List.Perm.swap e x xs)
    · rw [if_neg h]

theorem sortByIdDesc_perm : ∀ l : List TimelineEntry, (sortByIdDesc l).Perm l := by
  intro l
  induction l with
  | nil => exact List.Perm.refl _
  | cons x xs ih =>
    rw [sortByIdDesc]
    exact (insertByIdDesc_perm x (sortByIdDesc xs)).trans (List.Perm.cons x ih)

theorem insertByIdDesc_sorted (e : TimelineEntry) : ∀ l : List TimelineEntry,
    l.Pairwise (fun a b => b.id ≤ a.id) →
    (insertByIdDesc e l).Pairwise (fun a b => b.id ≤ a.id) := by
  intro l
  induction l with
  | nil => intro _; exact List.pairwise_singleton _ _
  | cons x xs ih =>
    intro h
    obtain ⟨hx, hxs⟩ := List.pairwise_cons.mp h
    rw [insertByIdDesc]
    by_cases hlt : e.id < x.id
    · rw [if_pos hlt, List.pairwise_cons]
      refine ⟨?_, ih hxs⟩
      intro y hy
      have hmem : y ∈ e :: xs := (insertByIdDesc_perm e xs).mem_iff.mp hy
      rcases List.mem_cons.mp hmem with rfl | hmem2
      · omega
      · exact hx y hmem2
    · rw [if_neg hlt, List.pairwise_cons]
      refine ⟨?_, h⟩
      intro y hy
      rcases List.mem_cons.mp hy with rfl | hmem2
      · omega
      · have := hx y hmem2
        omega

theorem sortByIdDesc_sorted : ∀ l : List TimelineEntry,
    (sortByIdDesc l).Pairwise (fun a b => b.id ≤ a.id) := by
  intro l
  induction l with
  | nil => exact List.Pairwise.nil
  | cons x xs ih =>
    rw [sortByIdDesc]
    exact insertByIdDesc_sorted x _ ih

theorem sortByIdDesc_eq_reverse (l : List TimelineEntry)
    (h : (l.map (fun e => e.id)).Pairwise (· < ·)) :
    sortByIdDesc l = l.reverse := by
  have hperm : (sortByIdDesc l).Perm l.reverse :=
    (sortByIdDesc_perm l).trans (List.reverse_perm l).symm
  have hnodup : (l.map (fun e => e.id)).Nodup := h.imp (fun hab => Nat.ne_of_lt hab)
  have hnodup2 : ((sortByIdDesc l).map (fun e => e.id)).Nodup :=
    ((sortByIdDesc_perm l).map (fun e => e.id)).nodup_iff.mpr hnodup
  have hne2 : (sortByIdDesc l).Pairwise (fun a b => a.id ≠ b.id) :=
    List.pairwise_map.mp hnodup2
  have hstrict1 : (sortByIdDesc l).Pairwise (fun a b => b.id < a.id) :=
    ((sortByIdDesc_sorted l).and hne2).imp
      (fun hab => Nat.lt_of_le_of_ne hab.1 (Ne.symm hab.2))
  have hstrict2 : (l.reverse).Pairwise (fun a b => b.id < a.id) :=
    List.pairwise_reverse.mpr (List.pairwise_map.mp h)
  haveI : IsAntisymm TimelineEntry (fun a b => b.id < a.id) :=
    ⟨fun a b h1 h2 => absurd h2 (Nat.lt_asymm h1)⟩
  exact List.eq_of_perm_of_sorted hperm hstrict1 hstrict2

theorem getTimeline_eq_reverse_take (s : StoreState) (platform platformChatId : String)
    (before limit : Option Nat)
    (h : (s.timeline.map (fun e => e.id)).Pairwise (· < ·)) :
    getTimeline s platform platformChatId before limit
      = ((s.timeline.filter
            (timelineQueryMatches platform platformChatId before)).reverse).take
          (limit.getD 50) := by
  have hsub : ∀ p : TimelineEntry → Bool,
      ((s.timeline.filter p).map (fun e => e.id)).Pairwise (· < ·) := by
    intro p
    exact List.Pairwise.sublist ((List.filter_sublist s.timeline).map (fun e => e.id)) h
  simp only [getTimeline]
  cases before with
  | none =>
    have hfeq : s.timeline.filter
        (fun e => e.platform == platform && e.platformChatId == platformChatId)
        = s.timeline.filter (timelineQueryMatches platform platformChatId none) := by
      apply List.filter_congr
      intro e _
      simp [timelineQueryMatches]
    rw [show (match (none : Option Nat) with
        | some b => (s.timeline.filter
            (fun e => e.platform == platform && e.platformChatId == platformChatId)).filter
            (fun e => decide (e.id < b))
        | none => s.timeline.filter
            (fun e => e.platform == platform && e.platformChatId == platformChatId))
      = s.timeline.filter
          (fun e => e.platform == platform && e.platformChatId == platformChatId) from rfl]
    rw [hfeq, sortByIdDesc_eq_reverse _ (hsub _)]
  | some b =>
    have hfeq : (s.timeline.filter
          (fun e => e.platform == platform && e.platformChatId == platformChatId)).filter
          (fun e => decide (e.id < b))
        = s.timeline.filter (timelineQueryMatches platform platformChatId (some b)) := by
      rw [List.filter_filter]
      apply List.filter_congr
      intro e _
      simp only [timelineQueryMatches]
      rw [Bool.and_comm]
    rw [show (match (some b : Option Nat) with
        | some b => (s.timeline.filter
            (fun e => e.platform == platform && e.platformChatId == platformChatId)).filter
            (fun e => decide (e.id < b))
        | none => s.timeline.filter
            (fun e => e.platform == platform && e.platformChatId == platformChatId))
      = (s.timeline.filter
          (fun e => e.platform == platform && e.platformChatId == platformChatId)).filter
          (fun e => decide (e.id < b)) from rfl]
    rw [hfeq, sortByIdDesc_eq_reverse _ (hsub _)]

theorem runIngests_sorted (ops : List IngestOp) : ∀ s : StoreState,
    (s.timeline.map (fun e => e.id)).Pairwise (· < ·) →
    (∀ x ∈ s.timeline, x.id < s.nextTimelineId) →
    ((runIngests s ops).2.timeline.map (fun e => e.id)).Pairwise (· < ·)
    ∧ (∀ x ∈ (runIngests s ops).2.timeline,
        x.id < (runIngests s ops).2.nextTimelineId) := by
  induction ops with
  | nil => intro s h1 h2; exact ⟨h1, h2⟩
  | cons op rest ih =>
    intro s h1 h2
    simp only [runIngests]
    apply ih
    · rw [ingestTransaction_timeline, List.map_append, List.pairwise_append]
      refine ⟨h1, List.pairwise_singleton _ _, ?_⟩
      intro a ha b hb
      rw [ingestTransaction_entry] at hb
      simp only [List.map_cons, List.map_nil, List.mem_singleton] at hb
      subst hb
      obtain ⟨x, hx, rfl⟩ := List.mem_map.mp ha
      exact h2 x hx
    · intro x hx
      rw [ingestTransaction_timeline] at hx
      rw [ingestTransaction_nextTimelineId]
      rcases List.mem_append.mp hx with hx | hx
      · exact Nat.lt_trans (h2 x hx) (Nat.lt_succ_self _)
      · rw [List.mem_singleton] at hx
        subst hx
        rw [ingestTransaction_entry]
        exact Nat.lt_succ_self _

/-- C3 counterexample to the claim as stated: after ingesting ids 1 and 2
into one conversation, `getTimeline` with after = 1 must — per the claim —
return only entries with id > 1, but the implementation ignores the
`after` cursor and returns both entries, id 1 included. -/
theorem claim_C3_counterexample :
    ((serviceGetTimeline (mkService (runIngests initialState
          [⟨"t1", ⟨"in", "telegram", "m1", "c1", none, "Alice", "u1",
              some "a", some 1, none⟩, "Alice"⟩,
            ⟨"t2", ⟨"in", "telegram", "m2", "c1", none, "Alice", "u1",
              some "b", some 2, none⟩, "Alice"⟩]).2)
        "telegram" "c1" (some 1) none none).map (fun e => e.id) = [2, 1])
    ∧ ¬ (∀ e ∈ serviceGetTimeline (mkService (runIngests initialState
          [⟨"t1", ⟨"in", "telegram", "m1", "c1", none, "Alice", "u1",
              some "a", some 1, none⟩, "Alice"⟩,
            ⟨"t2", ⟨"in", "telegram", "m2", "c1", none, "Alice", "u1",
              some "b", some 2, none⟩, "Alice"⟩]).2)
        "telegram" "c1" (some 1) none none, 1 < e.id) := by
  constructor
  · decide
  · decide

/-- C3 (amended): `getTimeline` ignores the `after` cursor (declared in
the service interface and forwarded by the HTTP adapter, but unused by
this implementation); on every reachable store it returns exactly the
conversation's entries with id < before (when given), ordered by id
descending, truncated to the `limit.getD 50` largest; ingesting ids 1..5
and querying with before = 4, limit = 2 yields ids [3, 2]. -/
theorem claim_C3_amended_query (ops : List IngestOp) (platform platformChatId : String)
    (after before limit : Option Nat) :
    serviceGetTimeline (mkService (runIngests initialState ops).2) platform platformChatId
        after before limit
      = serviceGetTimeline (mkService (runIngests initialState ops).2) platform
          platformChatId none before limit
    ∧ serviceGetTimeline (mkService (runIngests initialState ops).2) platform platformChatId
        after before limit
      = (((runIngests initialState ops).2.timeline.filter
            (timelineQueryMatches platform platformChatId before)).reverse).take
          (limit.getD 50)
    ∧ ((serviceGetTimeline (mkService (runIngests initialState ops).2) platform
          platformChatId after before limit).map (fun e => e.id)).Pairwise (· > ·)
    ∧ (serviceGetTimeline (mkService (runIngests initialState ops).2) platform
          platformChatId after before limit).length ≤ limit.getD 50
    ∧ (∀ e ∈ serviceGetTimeline (mkService (runIngests initialState ops).2) platform
          platformChatId after before limit,
        e ∈ (runIngests initialState ops).2.timeline
          ∧ timelineQueryMatches platform platformChatId before e = true)
    ∧ (∀ e ∈ (runIngests initialState ops).2.timeline,
        timelineQueryMatches platform platformChatId before e = true →
        e ∈ serviceGetTimeline (mkService (runIngests initialState ops).2) platform
            platformChatId after before limit
          ∨ (serviceGetTimeline (mkService (runIngests initialState ops).2) platform
              platformChatId after before limit).length = limit.getD 50)
    ∧ (serviceGetTimeline (mkService (runIngests initialState
          [⟨"t1", ⟨"in", "telegram", "m1", "c1", none, "Alice", "u1",
              some "x", some 1, none⟩, "Alice"⟩,
            ⟨"t2", ⟨"in", "telegram", "m2", "c1", none, "Alice", "u1",
              some "x", some 2, none⟩, "Alice"⟩,
            ⟨"t3", ⟨"in", "telegram", "m3", "c1", none, "Alice", "u1",
              some "x", some 3, none⟩, "Alice"⟩,
            ⟨"t4", ⟨"in", "telegram", "m4", "c1", none, "Alice", "u1",
              some "x", some 4, none⟩, "Alice"⟩,
            ⟨"t5", ⟨"in", "telegram", "m5", "c1", none, "Alice", "u1",
              some "x", some 5, none⟩, "Alice"⟩]).2)
          "telegram" "c1" none (some 4) (some 2)).map (fun e => e.id) = [3, 2] := by
  have hsorted : (((runIngests initialState ops).2.timeline.map (fun e => e.id)).Pairwise
      (· < ·)) :=
    (runIngests_sorted ops initialState (by simp [initialState]) (by simp [initialState])).1
  have hmain : serviceGetTimeline (mkService (runIngests initialState ops).2) platform
      platformChatId after before limit
      = (((runIngests initialState ops).2.timeline.filter
            (timelineQueryMatches platform platformChatId before)).reverse).take
          (limit.getD 50) :=
    getTimeline_eq_reverse_take _ platform platformChatId before limit hsorted
  refine ⟨rfl, hmain, ?_, ?_, ?_, ?_, ?_⟩
  · rw [hmain]
    have hrev : ((((runIngests initialState ops).2.timeline.filter
        (timelineQueryMatches platform platformChatId before)).reverse).map
          (fun e => e.id)).Pairwise (· > ·) := by
      rw [List.map_reverse]
      exact List.pairwise_reverse.mpr
        (List.Pairwise.sublist
          ((List.filter_sublist _).map (fun e : TimelineEntry => e.id)) hsorted)
    exact List.Pairwise.sublist
      ((List.take_sublist _ _).map (fun e : TimelineEntry => e.id)) hrev
  · rw [hmain, List.length_take]
    exact Nat.min_le_left _ _
  · intro e he
    rw [hmain] at he
    have he2 := List.mem_reverse.mp (List.mem_of_mem_take he)
    exact (List.mem_filter.mp he2).imp id (fun h => h)
  · intro e he hq
    by_cases hlen : (((runIngests initialState ops).2.timeline.filter
        (timelineQueryMatches platform platformChatId before)).reverse).length
        ≤ limit.getD 50
    · left
      rw [hmain, List.take_of_length_le hlen, List.mem_reverse]
      exact List.mem_filter.mpr ⟨he, hq⟩
    · right
      rw [hmain, List.length_take]
      omega
  · decide

/-- C3 (amended) witness: the canonical form evaluated on one concrete
ingest with a supplied — and ignored — after cursor. -/
theorem claim_C3_witness :
    serviceGetTimeline (mkService (runIngests initialState
          [⟨"t1", ⟨"in", "telegram", "m1", "c1", none, "Alice", "u1",
              some "a", some 1, none⟩, "Alice"⟩]).2)
        "telegram" "c1" (some 3) (some 9) (some 1)
      = (((runIngests initialState
            [⟨"t1", ⟨"in", "telegram", "m1", "c1", none, "Alice", "u1",
                some "a", some 1, none⟩, "Alice"⟩]).2.timeline.filter
            (timelineQueryMatches "telegram" "c1" (some 9))).reverse).take 1 :=
  (claim_C3_amended_query
    [⟨"t1", ⟨"in", "telegram", "m1", "c1", none, "Alice", "u1",
        some "a", some 1, none⟩, "Alice"⟩]
    "telegram" "c1" (some 3) (some 9) (some 1)).2.1

end ChatRouter
